import Mathlib

/-!
Verification of the request-admission and caching control plane of the
SYNRAX service: the JSON serialization layer used by the cache
(Python `json.dumps` / `json.loads`), the redis-backed `CacheManager`
(`src/cache.py`), the `SessionManager` and `SecurityMiddleware`
(`src/security.py`), the configuration defaults (`src/config.py`), and
the single-flight report endpoint (`web_new.py`).

Python values that flow through the cache are modelled by the `Json`
inductive; timestamps and TTL durations are integers (seconds); the
redis server is modelled as an association list of entries carrying
absolute expiry times; the asyncio event loop is modelled as explicit
interleaving of atomic steps.
-/

/-- JSON values, the serializable payloads stored in the cache.
`Json.null` doubles as the Python value `None`. -/
inductive Json where
  | null : Json
  | bool (b : Bool) : Json
  | num (n : Int) : Json
  | str (s : String) : Json
  | arr (xs : List Json) : Json
  | obj (kvs : List (String × Json)) : Json

/-- Decimal digits of a natural number, least significant first.  The
first argument is fuel so that the recursion is structural; with fuel
`n` it computes `Nat.digits 10 n`. -/
def natDigitsAux : Nat → Nat → List Nat
  | 0, _ => []
  | _ + 1, 0 => []
  | fuel + 1, n + 1 => ((n + 1) % 10) :: natDigitsAux fuel ((n + 1) / 10)

/-- Decimal digits of a natural number, least significant first. -/
def natDigits (n : Nat) : List Nat := natDigitsAux n n

/-- The character for a decimal digit. -/
def digitChar (d : Nat) : Char := Char.ofNat (48 + d)

/-- The numeric value of a decimal digit character. -/
def digitVal (c : Char) : Nat := c.toNat - 48

/-- Decimal representation of a natural number, most significant digit first. -/
def natChars (n : Nat) : List Char :=
  if n = 0 then ['0'] else (natDigits n).reverse.map digitChar

/-- Decimal representation of an integer, as printed by `json.dumps` for
a JSON number. -/
def intChars (n : Int) : List Char :=
  if n < 0 then '-' :: natChars n.natAbs else natChars n.toNat

/-- Escaping of string contents: `json.dumps` escapes the quote and the
backslash of a string; other characters are kept as they are. -/
def escapeStr : List Char → List Char
  | [] => []
  | c :: cs =>
    if c = '"' ∨ c = '\\' then '\\' :: c :: escapeStr cs
    else c :: escapeStr cs

mutual

/-- Serialization of a JSON value to text, the model of `json.dumps`. -/
def printJson : Json → List Char
  | Json.null => ['n', 'u', 'l', 'l']
  | Json.bool true => ['t', 'r', 'u', 'e']
  | Json.bool false => ['f', 'a', 'l', 's', 'e']
  | Json.num n => intChars n
  | Json.str s => '"' :: escapeStr s.data ++ ['"']
  | Json.arr [] => ['[', ']']
  | Json.arr (x :: xs) => '[' :: printElems (x :: xs)
  | Json.obj [] => ['\x7b', '\x7d']
  | Json.obj (kv :: kvs) => '\x7b' :: printMembers (kv :: kvs)

/-- Serialization of the elements of an array, with the closing bracket. -/
def printElems : List Json → List Char
  | [] => [']']
  | [x] => printJson x ++ [']']
  | x :: y :: ys => printJson x ++ ',' :: printElems (y :: ys)

/-- Serialization of the members of an object, with the closing brace. -/
def printMembers : List (String × Json) → List Char
  | [] => ['\x7d']
  | [(k, v)] => '"' :: escapeStr k.data ++ '"' :: ':' :: printJson v ++ ['\x7d']
  | (k, v) :: kv :: kvs =>
      '"' :: escapeStr k.data ++ '"' :: ':' :: printJson v ++ ',' :: printMembers (kv :: kvs)

end

/-- Splits the leading run of decimal-digit characters off the input. -/
def readDigits : List Char → List Nat × List Char
  | [] => ([], [])
  | c :: cs =>
    if c.isDigit then
      let p := readDigits cs
      (digitVal c :: p.1, p.2)
    else ([], c :: cs)

/-- Value of a digit list given least significant first. -/
def natFromDigitsRev : List Nat → Nat
  | [] => 0
  | d :: ds => d + 10 * natFromDigitsRev ds

/-- Parses a JSON number: an optional minus sign followed by decimal digits. -/
def parseNum (cs : List Char) : Option (Int × List Char) :=
  match cs with
  | [] => none
  | c :: cs1 =>
    if c = '-' then
      match readDigits cs1 with
      | ([], _) => none
      | (d :: ds, rest) => some (-(natFromDigitsRev ((d :: ds).reverse) : Int), rest)
    else
      match readDigits (c :: cs1) with
      | ([], _) => none
      | (d :: ds, rest) => some ((natFromDigitsRev ((d :: ds).reverse) : Int), rest)

/-- Parses a string body after the opening quote, un-escaping as it
goes; returns the contents and the input following the closing quote. -/
def parseStr : List Char → Option (List Char × List Char)
  | [] => none
  | c :: cs =>
    if c = '"' then some ([], cs)
    else if c = '\\' then
      match cs with
      | [] => none
      | c2 :: cs2 => (parseStr cs2).map (fun p => (c2 :: p.1, p.2))
    else (parseStr cs).map (fun p => (c :: p.1, p.2))

/-- Matches an expected literal sequence of characters. -/
def expectChars : List Char → List Char → Option (List Char)
  | [], cs => some cs
  | e :: es, c :: cs => if c = e then expectChars es cs else none
  | _ :: _, [] => none

/-- One layer of the recursive-descent JSON parser: given the parsers
for one unit less fuel, builds the value parser, the array-elements
parser and the object-members parser.  The triple encoding keeps the
recursion structural in the fuel. -/
def parsersStep
    (pv : List Char → Option (Json × List Char))
    (pe : List Char → Option (List Json × List Char))
    (pm : List Char → Option (List (String × Json) × List Char)) :
    (List Char → Option (Json × List Char)) ×
    (List Char → Option (List Json × List Char)) ×
    (List Char → Option (List (String × Json) × List Char)) :=
  ( fun cs =>
      match cs with
      | [] => none
      | c :: cs1 =>
        if c = '"' then (parseStr cs1).map (fun p => (Json.str (String.mk p.1), p.2))
        else if c = 'n' then (expectChars ['u', 'l', 'l'] cs1).map (fun rest => (Json.null, rest))
        else if c = 't' then (expectChars ['r', 'u', 'e'] cs1).map (fun rest => (Json.bool true, rest))
        else if c = 'f' then (expectChars ['a', 'l', 's', 'e'] cs1).map (fun rest => (Json.bool false, rest))
        else if c = '[' then
          if cs1.head? = some ']' then some (Json.arr [], cs1.tail)
          else (pe cs1).map (fun p => (Json.arr p.1, p.2))
        else if c = '\x7b' then
          if cs1.head? = some '\x7d' then some (Json.obj [], cs1.tail)
          else (pm cs1).map (fun p => (Json.obj p.1, p.2))
        else (parseNum (c :: cs1)).map (fun p => (Json.num p.1, p.2)),
    fun cs =>
      match pv cs with
      | none => none
      | some (v, rest) =>
        match rest with
        | ',' :: rest2 => (pe rest2).map (fun p => (v :: p.1, p.2))
        | ']' :: rest2 => some ([v], rest2)
        | _ => none,
    fun cs =>
      match cs with
      | '"' :: cs1 =>
        match parseStr cs1 with
        | none => none
        | some (k, cs2) =>
          match cs2 with
          | ':' :: cs3 =>
            match pv cs3 with
            | none => none
            | some (v, cs4) =>
              match cs4 with
              | ',' :: cs5 => (pm cs5).map (fun p => ((String.mk k, v) :: p.1, p.2))
              | '\x7d' :: cs5 => some ([(String.mk k, v)], cs5)
              | _ => none
          | _ => none
      | _ => none )

/-- The fueled JSON parsers: value parser, array-elements parser and
object-members parser. -/
def parsers : Nat →
    (List Char → Option (Json × List Char)) ×
    (List Char → Option (List Json × List Char)) ×
    (List Char → Option (List (String × Json) × List Char))
  | 0 => (fun _ => none, fun _ => none, fun _ => none)
  | fuel + 1 => parsersStep (parsers fuel).1 (parsers fuel).2.1 (parsers fuel).2.2

/-- The fueled JSON value parser. -/
def parseVal (fuel : Nat) (cs : List Char) : Option (Json × List Char) := (parsers fuel).1 cs

/-- The fueled parser for the elements of a nonempty array. -/
def parseElems (fuel : Nat) (cs : List Char) : Option (List Json × List Char) := (parsers fuel).2.1 cs

/-- The fueled parser for the members of a nonempty object. -/
def parseMembers (fuel : Nat) (cs : List Char) : Option (List (String × Json) × List Char) :=
  (parsers fuel).2.2 cs

/-- Model of `json.dumps`: serialize a JSON value to text.  Total on the
`Json` domain, which holds exactly the serializable payloads. -/
def dumps (v : Json) : List Char := printJson v

/-- Model of `json.loads`: parse text into a JSON value; `none` models a
parse error.  The whole input must be consumed. -/
def loads (cs : List Char) : Option Json :=
  match parseVal (cs.length + 1) cs with
  | some (v, []) => some v
  | _ => none

/-- Holds when the input does not begin with a decimal digit, so that a
number parse just before it stops at the right place. -/
def noDigitHead : List Char → Prop
  | [] => True
  | c :: _ => c.isDigit = false

theorem digitChar_isDigit (d : Nat) (h : d < 10) : (digitChar d).isDigit = true := by
  have hall : ∀ d : Nat, d < 10 → (digitChar d).isDigit = true := by decide
  exact hall d h

theorem digitVal_digitChar (d : Nat) (h : d < 10) : digitVal (digitChar d) = d := by
  have hall : ∀ d : Nat, d < 10 → digitVal (digitChar d) = d := by decide
  exact hall d h

theorem natDigitsAux_eq (fuel : Nat) : ∀ n : Nat, n ≤ fuel → natDigitsAux fuel n = Nat.digits 10 n := by
  induction fuel with
  | zero =>
    intro n hn
    have h0 : n = 0 := Nat.le_zero.mp hn
    subst h0
    simp [natDigitsAux]
  | succ f ih =>
    intro n hn
    match n with
    | 0 => simp [natDigitsAux]
    | m + 1 =>
      have hdiv : (m + 1) / 10 ≤ f := by
        have := Nat.div_lt_self (Nat.succ_pos m) (by norm_num : 1 < 10)
        omega
      rw [natDigitsAux, ih ((m + 1) / 10) hdiv,
        Nat.digits_def' (by norm_num : 1 < 10) (Nat.succ_pos m)]

theorem natDigits_eq (n : Nat) : natDigits n = Nat.digits 10 n :=
  natDigitsAux_eq n n le_rfl

theorem natFromDigitsRev_eq (l : List Nat) : natFromDigitsRev l = Nat.ofDigits 10 l := by
  induction l with
  | nil => simp [natFromDigitsRev, Nat.ofDigits]
  | cons d ds ih => simp [natFromDigitsRev, Nat.ofDigits_cons, ih]

theorem readDigits_noDigit (rest : List Char) (hr : noDigitHead rest) :
    readDigits rest = ([], rest) := by
  match rest with
  | [] => simp [readDigits]
  | c :: cs =>
    have hc : c.isDigit = false := hr
    simp [readDigits, hc]

theorem readDigits_digits (l : List Nat) (hl : ∀ d ∈ l, d < 10) (rest : List Char)
    (hr : noDigitHead rest) : readDigits (l.map digitChar ++ rest) = (l, rest) := by
  induction l with
  | nil => simpa using readDigits_noDigit rest hr
  | cons d ds ih =>
    have hd : d < 10 := hl d (List.mem_cons_self d ds)
    have hds : ∀ x ∈ ds, x < 10 := fun x hx => hl x (List.mem_cons_of_mem d hx)
    simp [readDigits, digitChar_isDigit d hd, digitVal_digitChar d hd, ih hds]

/-- The digit list produced by printing a natural number, most
significant digit first. -/
def natCharDigits (n : Nat) : List Nat :=
  if n = 0 then [0] else (natDigits n).reverse

theorem natCharDigits_spec (n : Nat) :
    natChars n = (natCharDigits n).map digitChar ∧ natCharDigits n ≠ [] ∧
      natFromDigitsRev (natCharDigits n).reverse = n ∧ ∀ d ∈ natCharDigits n, d < 10 := by
  by_cases h : n = 0
  · subst h
    refine ⟨by decide, by decide, by decide, by decide⟩
  · have hd := natDigits_eq n
    refine ⟨?_, ?_, ?_, ?_⟩
    · simp [natChars, natCharDigits, h]
    · simp only [natCharDigits, if_neg h]
      rw [hd]
      simpa using Nat.digits_ne_nil_iff_ne_zero.mpr h
    · simp only [natCharDigits, if_neg h]
      rw [List.reverse_reverse, hd, natFromDigitsRev_eq, Nat.ofDigits_digits]
    · intro d hdm
      simp only [natCharDigits, if_neg h] at hdm
      rw [hd] at hdm
      exact Nat.digits_lt_base (by norm_num) (List.mem_reverse.mp hdm)

theorem readDigits_natChars (n : Nat) (rest : List Char) (hr : noDigitHead rest) :
    readDigits (natChars n ++ rest) = (natCharDigits n, rest) := by
  obtain ⟨h1, _, _, h4⟩ := natCharDigits_spec n
  rw [h1]
  exact readDigits_digits _ h4 rest hr

theorem natChars_head (n : Nat) : ∃ c l, natChars n = c :: l ∧ c.isDigit = true := by
  obtain ⟨h1, h2, _, h4⟩ := natCharDigits_spec n
  match hx : natCharDigits n with
  | [] => exact absurd hx h2
  | d :: ds =>
    refine ⟨digitChar d, ds.map digitChar, ?_, ?_⟩
    · rw [h1, hx]; rfl
    · exact digitChar_isDigit d (h4 d (by rw [hx]; exact List.mem_cons_self d ds))

theorem intChars_head (n : Int) : ∃ c l, intChars n = c :: l ∧ (c = '-' ∨ c.isDigit = true) := by
  by_cases h : n < 0
  · exact ⟨'-', natChars n.natAbs, by simp [intChars, h], Or.inl rfl⟩
  · obtain ⟨c, l, hcl, hdig⟩ := natChars_head n.toNat
    exact ⟨c, l, by simp [intChars, h, hcl], Or.inr hdig⟩

theorem parseNum_intChars (n : Int) (rest : List Char) (hr : noDigitHead rest) :
    parseNum (intChars n ++ rest) = some (n, rest) := by
  obtain ⟨h1, h2, h3, h4⟩ := natCharDigits_spec n.natAbs
  by_cases h : n < 0
  · simp only [intChars, if_pos h, List.cons_append]
    have hred : parseNum ('-' :: (natChars n.natAbs ++ rest)) =
        match readDigits (natChars n.natAbs ++ rest) with
        | ([], _) => none
        | (d :: ds, rest2) => some (-(natFromDigitsRev ((d :: ds).reverse) : Int), rest2) := rfl
    rw [hred, readDigits_natChars n.natAbs rest hr]
    match hx : natCharDigits n.natAbs with
    | [] => exact absurd hx h2
    | d :: ds =>
      show some (-(natFromDigitsRev ((d :: ds).reverse) : Int), rest) = some (n, rest)
      rw [← hx, h3]
      have hcast : ((n.natAbs : Int)) = -n := by omega
      rw [hcast, neg_neg]
  · obtain ⟨h1t, h2t, h3t, h4t⟩ := natCharDigits_spec n.toNat
    have htn : ((n.toNat : Int)) = n := by omega
    simp only [intChars, if_neg h]
    obtain ⟨c, l, hcl, hdig⟩ := natChars_head n.toNat
    have hcne : c ≠ '-' := by
      intro hc
      rw [hc] at hdig
      exact absurd hdig (by decide)
    rw [hcl, List.cons_append]
    simp only [parseNum]
    rw [if_neg hcne, ← List.cons_append, ← hcl, readDigits_natChars n.toNat rest hr]
    match hx : natCharDigits n.toNat with
    | [] => exact absurd hx h2t
    | d :: ds =>
      show some ((natFromDigitsRev ((d :: ds).reverse) : Int), rest) = some (n, rest)
      rw [← hx, h3t, htn]

theorem parseStr_escape (s : List Char) (rest : List Char) :
    parseStr (escapeStr s ++ '"' :: rest) = some (s, rest) := by
  induction s with
  | nil =>
    rw [escapeStr, List.nil_append, parseStr.eq_def]
    simp
  | cons c cs ih =>
    by_cases h : c = '"' ∨ c = '\\'
    · rw [escapeStr, if_pos h, List.cons_append, List.cons_append, parseStr.eq_def]
      have e1 : ('\\' : Char) ≠ '"' := by decide
      simp [e1, ih]
    · push_neg at h
      rw [escapeStr, if_neg (by tauto), List.cons_append, parseStr.eq_def]
      simp [h.1, h.2, ih]

mutual

/-- Fuel needed by the parser to read back a printed JSON value. -/
def jsonSize : Json → Nat
  | Json.null => 1
  | Json.bool _ => 1
  | Json.num _ => 1
  | Json.str _ => 1
  | Json.arr xs => 1 + elemsSize xs
  | Json.obj kvs => 1 + membersSize kvs

/-- Fuel needed to read back printed array elements. -/
def elemsSize : List Json → Nat
  | [] => 0
  | x :: xs => jsonSize x + elemsSize xs + 1

/-- Fuel needed to read back printed object members. -/
def membersSize : List (String × Json) → Nat
  | [] => 0
  | kv :: kvs => jsonSize kv.2 + membersSize kvs + 1

end

theorem jsonSize_pos (v : Json) : 1 ≤ jsonSize v := by
  cases v <;> simp [jsonSize]

theorem elemsSize_pos (xs : List Json) (h : xs ≠ []) : 1 ≤ elemsSize xs := by
  cases xs with
  | nil => contradiction
  | cons x xs => simp only [elemsSize]; omega

theorem membersSize_pos (kvs : List (String × Json)) (h : kvs ≠ []) : 1 ≤ membersSize kvs := by
  cases kvs with
  | nil => contradiction
  | cons kv kvs => simp only [membersSize]; omega

/-- Characters that can begin the serialization of a JSON value. -/
def startChar (c : Char) : Bool :=
  c = 'n' || c = 't' || c = 'f' || c = '"' || c = '[' || c = '\x7b' || c = '-' || c.isDigit

theorem printJson_head (v : Json) : ∃ c l, printJson v = c :: l ∧ startChar c = true := by
  match v with
  | Json.null => exact ⟨'n', _, rfl, by decide⟩
  | Json.bool true => exact ⟨'t', _, rfl, by decide⟩
  | Json.bool false => exact ⟨'f', _, rfl, by decide⟩
  | Json.num n =>
    obtain ⟨c, l, hcl, hd⟩ := intChars_head n
    refine ⟨c, l, by rw [show printJson (Json.num n) = intChars n from rfl, hcl], ?_⟩
    rcases hd with rfl | hd
    · decide
    · simp [startChar, hd]
  | Json.str s => exact ⟨'"', _, rfl, by decide⟩
  | Json.arr [] => exact ⟨'[', _, rfl, by decide⟩
  | Json.arr (x :: xs) => exact ⟨'[', _, rfl, by decide⟩
  | Json.obj [] => exact ⟨'\x7b', _, rfl, by decide⟩
  | Json.obj (kv :: kvs) => exact ⟨'\x7b', _, rfl, by decide⟩

theorem numStart_ne (c : Char) (h : c = '-' ∨ c.isDigit = true) :
    c ≠ '"' ∧ c ≠ 'n' ∧ c ≠ 't' ∧ c ≠ 'f' ∧ c ≠ '[' ∧ c ≠ '\x7b' := by
  rcases h with rfl | h
  · exact ⟨by decide, by decide, by decide, by decide, by decide, by decide⟩
  · refine ⟨?_, ?_, ?_, ?_, ?_, ?_⟩ <;> rintro rfl <;> exact absurd h (by decide)

theorem startChar_ne_close (c : Char) (h : startChar c = true) : c ≠ ']' ∧ c ≠ '\x7d' := by
  constructor <;> rintro rfl <;> exact absurd h (by decide)

theorem noDigitHead_cons (c : Char) (l : List Char) (h : c.isDigit = false) :
    noDigitHead (c :: l) := h

theorem printElems_cons (x : Json) (xs : List Json) :
    ∃ t, printElems (x :: xs) = printJson x ++ t := by
  cases xs with
  | nil => exact ⟨[']'], rfl⟩
  | cons y ys => exact ⟨',' :: printElems (y :: ys), rfl⟩

theorem printMembers_cons (kv : String × Json) (kvs : List (String × Json)) :
    ∃ t, printMembers (kv :: kvs) = '"' :: t := by
  match kv, kvs with
  | (k, v), [] => exact ⟨_, rfl⟩
  | (k, v), kv2 :: kvs2 => exact ⟨_, rfl⟩

theorem parseVal_succ (f : Nat) (cs : List Char) :
    parseVal (f + 1) cs = (parsersStep (parseVal f) (parseElems f) (parseMembers f)).1 cs := rfl

theorem parseElems_succ (f : Nat) (cs : List Char) :
    parseElems (f + 1) cs = (parsersStep (parseVal f) (parseElems f) (parseMembers f)).2.1 cs := rfl

theorem parseMembers_succ (f : Nat) (cs : List Char) :
    parseMembers (f + 1) cs = (parsersStep (parseVal f) (parseElems f) (parseMembers f)).2.2 cs := rfl

theorem printParse_aux (fuel : Nat) :
    (∀ v rest, jsonSize v ≤ fuel → noDigitHead rest →
      parseVal fuel (printJson v ++ rest) = some (v, rest)) ∧
    (∀ xs rest, elemsSize xs ≤ fuel → xs ≠ [] →
      parseElems fuel (printElems xs ++ rest) = some (xs, rest)) ∧
    (∀ kvs rest, membersSize kvs ≤ fuel → kvs ≠ [] →
      parseMembers (fuel : Nat) (printMembers kvs ++ rest) = some (kvs, rest)) := by
  induction fuel using Nat.strong_induction_on with
  | _ fuel ih =>
  match fuel with
  | 0 =>
    refine ⟨?_, ?_, ?_⟩
    · intro v rest hf _
      exact absurd hf (by have := jsonSize_pos v; omega)
    · intro xs rest hf hx
      exact absurd hf (by have := elemsSize_pos xs hx; omega)
    · intro kvs rest hf hx
      exact absurd hf (by have := membersSize_pos kvs hx; omega)
  | f + 1 =>
  obtain ⟨IHv, IHe, IHm⟩ := ih f (by omega)
  refine ⟨?_, ?_, ?_⟩
  · intro v rest hf hr
    rw [parseVal_succ]
    cases v with
    | null => rfl
    | bool b => cases b with
      | true => rfl
      | false => rfl
    | num n =>
      obtain ⟨c, l, hcl, hd⟩ := intChars_head n
      obtain ⟨e1, e2, e3, e4, e5, e6⟩ := numStart_ne c hd
      rw [show printJson (Json.num n) = intChars n from rfl, hcl, List.cons_append]
      simp only [parsersStep]
      rw [if_neg e1, if_neg e2, if_neg e3, if_neg e4, if_neg e5, if_neg e6,
        ← List.cons_append, ← hcl, parseNum_intChars n rest hr]
      rfl
    | str s =>
      rw [show printJson (Json.str s) = '"' :: (escapeStr s.data ++ ['"']) from rfl,
        List.cons_append, List.append_assoc]
      have hstep : parseVal (f + 1) ('"' :: (escapeStr s.data ++ ('"' :: rest))) =
          (parseStr (escapeStr s.data ++ '"' :: rest)).map
            (fun p => (Json.str (String.mk p.1), p.2)) := rfl
      rw [show (['"'] ++ rest : List Char) = '"' :: rest from rfl, ← parseVal_succ, hstep,
        parseStr_escape]
      rfl
    | arr xs0 =>
      cases xs0 with
      | nil => rfl
      | cons x xs =>
      rw [show printJson (Json.arr (x :: xs)) = '[' :: printElems (x :: xs) from rfl,
        List.cons_append]
      simp only [parsersStep]
      obtain ⟨t, ht⟩ := printElems_cons x xs
      obtain ⟨c0, l0, hcl0, hs0⟩ := printJson_head x
      have hne : (printElems (x :: xs) ++ rest).head? ≠ some ']' := by
        rw [ht, hcl0]
        simp only [List.cons_append, List.head?_cons]
        intro hcon
        exact absurd hs0 (by rw [(Option.some.injEq _ _).mp hcon]; decide)
      simp only [if_true]
      rw [if_neg hne,
        IHe (x :: xs) rest (by simp only [jsonSize] at hf; omega) (by simp)]
      rfl
    | obj kvs0 =>
      cases kvs0 with
      | nil => rfl
      | cons kv kvs =>
      rw [show printJson (Json.obj (kv :: kvs)) = '\x7b' :: printMembers (kv :: kvs) from rfl,
        List.cons_append]
      simp only [parsersStep]
      obtain ⟨t, ht⟩ := printMembers_cons kv kvs
      have hne : (printMembers (kv :: kvs) ++ rest).head? ≠ some '\x7d' := by
        rw [ht]
        simp only [List.cons_append, List.head?_cons]
        intro hcon
        exact absurd ((Option.some.injEq _ _).mp hcon) (by decide)
      simp only [if_true]
      rw [if_neg hne,
        IHm (kv :: kvs) rest (by simp only [jsonSize] at hf; omega) (by simp)]
      rfl
  · intro xs rest hf hx
    cases xs with
    | nil => exact absurd rfl hx
    | cons x ys0 =>
    cases ys0 with
    | nil =>
      rw [parseElems_succ]
      simp only [parsersStep]
      rw [show printElems [x] = printJson x ++ [']'] from rfl, List.append_assoc,
        show (([']'] : List Char) ++ rest) = ']' :: rest from rfl,
        IHv x (']' :: rest)
          (by simp only [elemsSize] at hf; omega) (noDigitHead_cons _ _ (by decide))]
      rfl
    | cons y ys =>
      rw [parseElems_succ]
      simp only [parsersStep]
      rw [show printElems (x :: y :: ys) = printJson x ++ ',' :: printElems (y :: ys) from rfl,
        List.append_assoc, List.cons_append,
        IHv x (',' :: (printElems (y :: ys) ++ rest))
          (by simp only [elemsSize] at hf; omega) (noDigitHead_cons _ _ (by decide))]
      simp only []
      rw [IHe (y :: ys) rest (by simp only [elemsSize] at hf ⊢; omega) (by simp)]
      rfl
  · intro kvs rest hf hx
    cases kvs with
    | nil => exact absurd rfl hx
    | cons kv kvs0 =>
    obtain ⟨k, v⟩ := kv
    cases kvs0 with
    | nil =>
      rw [parseMembers_succ, printMembers]
      simp only [parsersStep, List.cons_append, List.append_assoc, List.nil_append]
      rw [parseStr_escape]
      simp only []
      rw [IHv v ('\x7d' :: rest)
        (by simp only [membersSize] at hf; omega) (noDigitHead_cons _ _ (by decide))]
      rfl
    | cons kv2 kvs2 =>
      rw [parseMembers_succ, printMembers]
      simp only [parsersStep, List.cons_append, List.append_assoc, List.nil_append]
      rw [parseStr_escape]
      simp only []
      rw [IHv v (',' :: (printMembers (kv2 :: kvs2) ++ rest))
        (by simp only [membersSize] at hf; omega) (noDigitHead_cons _ _ (by decide))]
      simp only []
      rw [IHm (kv2 :: kvs2) rest (by simp only [membersSize] at hf ⊢; omega) (by simp)]
      rfl

theorem parseVal_printJson (v : Json) (fuel : Nat) (rest : List Char)
    (hf : jsonSize v ≤ fuel) (hr : noDigitHead rest) :
    parseVal fuel (printJson v ++ rest) = some (v, rest) :=
  (printParse_aux fuel).1 v rest hf hr

theorem sizeLen_aux (n : Nat) :
    (∀ v, jsonSize v ≤ n → jsonSize v ≤ (printJson v).length) ∧
    (∀ xs, elemsSize xs ≤ n → elemsSize xs ≤ (printElems xs).length) ∧
    (∀ kvs, membersSize kvs ≤ n → membersSize kvs ≤ (printMembers kvs).length) := by
  induction n with
  | zero =>
    refine ⟨?_, ?_, ?_⟩
    · intro v hv
      exact absurd hv (by have := jsonSize_pos v; omega)
    · intro xs hx
      omega
    · intro kvs hk
      omega
  | succ m ih =>
    obtain ⟨IHv, IHe, IHm⟩ := ih
    refine ⟨?_, ?_, ?_⟩
    · intro v hv
      cases v with
      | null => decide
      | bool b => cases b with
        | true => decide
        | false => decide
      | num k =>
        obtain ⟨c, l, hcl, _⟩ := intChars_head k
        rw [show printJson (Json.num k) = intChars k from rfl, hcl]
        simp [jsonSize]
      | str s =>
        rw [show printJson (Json.str s) = '"' :: (escapeStr s.data ++ ['"']) from rfl]
        simp [jsonSize]
      | arr xs0 =>
        cases xs0 with
        | nil => decide
        | cons x xs =>
          have h1 := IHe (x :: xs) (by simp only [jsonSize] at hv ⊢; omega)
          rw [show printJson (Json.arr (x :: xs)) = '[' :: printElems (x :: xs) from rfl]
          simp only [jsonSize, List.length_cons] at hv ⊢
          omega
      | obj kvs0 =>
        cases kvs0 with
        | nil => decide
        | cons kv kvs =>
          have h1 := IHm (kv :: kvs) (by simp only [jsonSize] at hv ⊢; omega)
          rw [show printJson (Json.obj (kv :: kvs)) = '\x7b' :: printMembers (kv :: kvs) from rfl]
          simp only [jsonSize, List.length_cons] at hv ⊢
          omega
    · intro xs hx
      cases xs with
      | nil => decide
      | cons x ys0 =>
      cases ys0 with
      | nil =>
        have h1 := IHv x (by simp only [elemsSize] at hx ⊢; omega)
        rw [show printElems [x] = printJson x ++ [']'] from rfl]
        simp only [elemsSize, List.length_append, List.length_cons, List.length_nil] at hx ⊢
        omega
      | cons y ys =>
        have h1 := IHv x (by simp only [elemsSize] at hx ⊢; omega)
        have h2 := IHe (y :: ys) (by simp only [elemsSize] at hx ⊢; omega)
        rw [show printElems (x :: y :: ys) = printJson x ++ ',' :: printElems (y :: ys) from rfl]
        simp only [elemsSize, List.length_append, List.length_cons] at hx h2 ⊢
        omega
    · intro kvs hk
      cases kvs with
      | nil => decide
      | cons kv kvs0 =>
      obtain ⟨k, v⟩ := kv
      cases kvs0 with
      | nil =>
        have h1 := IHv v (by simp only [membersSize] at hk ⊢; omega)
        rw [show printMembers [(k, v)] =
            '"' :: escapeStr k.data ++ '"' :: ':' :: printJson v ++ ['\x7d'] from rfl]
        simp only [membersSize, List.length_append, List.length_cons, List.length_nil] at hk ⊢
        omega
      | cons kv2 kvs2 =>
        have h1 := IHv v (by simp only [membersSize] at hk ⊢; omega)
        have h2 := IHm (kv2 :: kvs2) (by simp only [membersSize] at hk ⊢; omega)
        rw [show printMembers ((k, v) :: kv2 :: kvs2) =
            '"' :: escapeStr k.data ++ '"' :: ':' :: printJson v ++ ',' :: printMembers (kv2 :: kvs2)
            from rfl]
        simp only [membersSize, List.length_append, List.length_cons] at hk h2 ⊢
        omega

theorem jsonSize_le_printLen (v : Json) : jsonSize v ≤ (printJson v).length :=
  (sizeLen_aux (jsonSize v)).1 v le_rfl

/-- Round trip of the serialization pair: parsing a printed JSON value
gives back exactly that value. -/
theorem loads_dumps (v : Json) : loads (dumps v) = some v := by
  unfold loads dumps
  have h := parseVal_printJson v ((printJson v).length + 1) []
    (by have := jsonSize_le_printLen v; omega) trivial
  rw [List.append_nil] at h
  rw [h]

/-- A printed JSON value is never the empty string (so the emptiness
test in the cache `get` never masks a stored value). -/
theorem dumps_ne_nil (v : Json) : dumps v ≠ [] := by
  obtain ⟨c, l, hcl, _⟩ := printJson_head v
  rw [show dumps v = printJson v from rfl, hcl]
  simp

/-- One key of the redis backing store, with its stored string and its
absolute expiry time (`SETEX` stores `now + ttl`). -/
structure RedisEntry where
  key : String
  value : List Char
  expiresAt : Int

/-- The state of the redis server: the list of stored entries. -/
abbrev RedisState := List RedisEntry

/-- The entry recorded for a key, if any (regardless of expiry). -/
def redisFind : RedisState → String → Option RedisEntry
  | [], _ => none
  | e :: rest, k => if e.key = k then some e else redisFind rest k

/-- Model of redis `GET` at time `now`: an expired entry is
indistinguishable from an absent one. -/
def redisGet (st : RedisState) (now : Int) (k : String) : Option (List Char) :=
  match redisFind st k with
  | some e => if now < e.expiresAt then some e.value else none
  | none => none

/-- Model of redis `SETEX`: a non-positive ttl is an error (redis
rejects it; `CacheManager.set` turns the raised error into a `False`
return), otherwise the entry is replaced with expiry `now + ttl`. -/
def redisSetex (st : RedisState) (now : Int) (k : String) (ttl : Int) (v : List Char) :
    Option RedisState :=
  if ttl ≤ 0 then none
  else some (⟨k, v, now + ttl⟩ :: st.filter (fun e => decide (e.key ≠ k)))

/-- Model of redis `DEL` for one key: how many live keys were removed,
and the new state. -/
def redisDel (st : RedisState) (now : Int) (k : String) : Nat × RedisState :=
  match redisGet st now k with
  | some _ => (1, st.filter (fun e => decide (e.key ≠ k)))
  | none => (0, st.filter (fun e => decide (e.key ≠ k)))

/-- Glob matching as used by redis `KEYS` (star and question mark). -/
def globMatch : List Char → List Char → Bool
  | [], [] => true
  | [], _ :: _ => false
  | '*' :: ps, [] => globMatch ps []
  | '*' :: ps, c :: ss => globMatch ps (c :: ss) || globMatch ('*' :: ps) ss
  | '?' :: ps, _ :: ss => globMatch ps ss
  | p :: ps, c :: ss => decide (p = c) && globMatch ps ss
  | _ :: _, [] => false
termination_by p s => p.length + s.length

/-- Model of redis `KEYS pattern`: the live keys matching the glob. -/
def redisKeys (st : RedisState) (now : Int) (pat : String) : List String :=
  (st.filter (fun e => decide (now < e.expiresAt) && globMatch pat.data e.key.data)).map
    (fun e => e.key)

/-- The cache manager of `src/cache.py`.  `hasClient` is whether
`redis_client` is not `None` (it is `None` when caching is disabled or
the startup `ping` failed); `cacheTtl` is `config.cache_ttl`, the
default TTL used when a caller supplies none. -/
structure CacheManager where
  cacheTtl : Int
  hasClient : Bool

/-- Python truthiness of a JSON value (used by `if value:` checks). -/
def truthy : Json → Bool
  | Json.null => false
  | Json.bool b => b
  | Json.num n => decide (n ≠ 0)
  | Json.str s => decide (s ≠ "")
  | Json.arr xs => !xs.isEmpty
  | Json.obj kvs => !kvs.isEmpty

/-- Model of `CacheManager.get`: the parsed stored value.  `Json.null` (Python
`None`) is the miss result, returned when the client is absent, the key
is missing or expired, the stored string is empty, or parsing raises. -/
def CacheManager.get (m : CacheManager) (st : RedisState) (now : Int) (key : String) : Json :=
  if m.hasClient = false then Json.null
  else
    match redisGet st now key with
    | some v => if v ≠ [] then (loads v).getD Json.null else Json.null
    | none => Json.null

/-- Model of `CacheManager.set`: `ttl = ttl or self.config.cache_ttl` treats a
`None` or `0` ttl argument as absent; serialization (`json.dumps`) is
total on the `Json` domain; a redis error — here a non-positive
effective ttl — yields `False` with the store unchanged. -/
def CacheManager.set (m : CacheManager) (st : RedisState) (now : Int) (key : String)
    (value : Json) (ttl : Option Int) : Bool × RedisState :=
  if m.hasClient = false then (false, st)
  else
    let ttlEff := match ttl with
      | none => m.cacheTtl
      | some t => if t = 0 then m.cacheTtl else t
    match redisSetex st now key ttlEff (dumps value) with
    | some st2 => (true, st2)
    | none => (false, st)

/-- Model of `CacheManager.delete`. -/
def CacheManager.delete (m : CacheManager) (st : RedisState) (now : Int) (key : String) :
    Bool × RedisState :=
  if m.hasClient = false then (false, st)
  else
    let p := redisDel st now key
    (decide (0 < p.1), p.2)

/-- Model of `CacheManager.exists` (named `existsKey` because `exists` is a
reserved word). -/
def CacheManager.existsKey (m : CacheManager) (st : RedisState) (now : Int) (key : String) :
    Bool :=
  if m.hasClient = false then false
  else (redisGet st now key).isSome

/-- Model of `CacheManager.clear_pattern`. -/
def CacheManager.clearPattern (m : CacheManager) (st : RedisState) (now : Int) (pat : String) :
    Nat × RedisState :=
  if m.hasClient = false then (0, st)
  else
    let ks := redisKeys st now pat
    if ks.isEmpty then (0, st)
    else (ks.length, st.filter (fun e => decide (e.key ∉ ks)))

/-- Cache key for sessions (`get_session_cache_key`). -/
def getSessionCacheKey (sessionId : String) : String := "session:" ++ sessionId

/-- Cache key for the security report (`get_report_cache_key`). -/
def getReportCacheKey : String := "security_report"

theorem CacheManager.set_pos (m : CacheManager) (st : RedisState) (now : Int) (k : String)
    (v : Json) (t : Int) (hc : m.hasClient = true) (ht : 0 < t) :
    m.set st now k v (some t) =
      (true, ⟨k, dumps v, now + t⟩ :: st.filter (fun e => decide (e.key ≠ k))) := by
  unfold CacheManager.set redisSetex
  rw [hc]
  simp only [Bool.true_eq_false, if_false]
  rw [if_neg (by omega : ¬ t = 0), if_neg (by omega : ¬ t ≤ 0)]

theorem CacheManager.get_entry_head (m : CacheManager) (rest : RedisState) (t2 : Int)
    (k : String) (v : Json) (x : Int) (hc : m.hasClient = true) (hlive : t2 < x) :
    m.get (⟨k, dumps v, x⟩ :: rest) t2 k = v := by
  unfold CacheManager.get redisGet redisFind
  rw [hc]
  simp [hlive, dumps_ne_nil, loads_dumps]

theorem CacheManager.get_entry_head_expired (m : CacheManager) (rest : RedisState) (t2 : Int)
    (k : String) (w : List Char) (x : Int) (hexp : x ≤ t2) :
    m.get (⟨k, w, x⟩ :: rest) t2 k = Json.null := by
  unfold CacheManager.get redisGet redisFind
  by_cases hc : m.hasClient = false
  · rw [if_pos hc]
  · rw [if_neg hc]
    simp [show ¬ t2 < x from by omega]

theorem CacheManager.get_later (m : CacheManager) (st : RedisState) (k : String)
    (t1 t2 : Int) (hle : t1 ≤ t2) :
    m.get st t2 k = m.get st t1 k ∨ m.get st t2 k = Json.null := by
  unfold CacheManager.get
  by_cases hc : m.hasClient = false
  · left
    rw [if_pos hc, if_pos hc]
  · rw [if_neg hc, if_neg hc]
    unfold redisGet
    cases redisFind st k with
    | none => exact Or.inl rfl
    | some e =>
      by_cases h2 : t2 < e.expiresAt
      · left
        have h1 : t1 < e.expiresAt := by omega
        simp only [h2, h1, if_true]
      · right
        simp only [h2, if_false]

theorem CacheManager.get_miss_mono (m : CacheManager) (st : RedisState) (k : String)
    (t1 t2 : Int) (h : truthy (m.get st t1 k) = false) (hle : t1 ≤ t2) :
    truthy (m.get st t2 k) = false := by
  rcases CacheManager.get_later m st k t1 t2 hle with hcase | hcase
  · rw [hcase]
    exact h
  · rw [hcase]
    rfl

/-- The resolved configuration (`src/config.py`): the values the core
reads.  `allowedHosts` and `maxRequestSize` come from `SecurityConfig`,
`cacheTtl` from `CACHE_TTL`, `sessionLifetime` from `SESSION_LIFETIME`. -/
structure Config where
  allowedHosts : List String
  maxRequestSize : Int
  cacheTtl : Int
  sessionLifetime : Int

/-- Value of `SecurityConfig.ALLOWED_HOSTS`. -/
def defaultAllowedHosts : List String := ["localhost", "127.0.0.1", "testserver"]

/-- Resolution of `Config.cache_ttl` from the environment: the value of
the `CACHE_TTL` variable when set, else the default 3600 (one hour). -/
def resolveCacheTtl (envCacheTtl : Option Int) : Int := envCacheTtl.getD 3600

/-- Model of `Config.is_allowed_host`. -/
def Config.isAllowedHost (cfg : Config) (host : String) : Bool :=
  cfg.allowedHosts.contains host

/-- The CSP allow-list structure (`SecurityConfig.CSP_POLICY`). -/
def cspPolicy : List (String × List String) :=
  [ ("default-src", ["\x27self\x27"]),
    ("script-src", ["\x27self\x27"]),
    ("style-src", ["\x27self\x27"]),
    ("font-src", ["\x27self\x27"]),
    ("img-src", ["\x27self\x27", "data:", "blob:", "https://www.gstatic.com"]),
    ("connect-src", ["\x27self\x27", "ws:", "wss:", "http://localhost:11434"]),
    ("frame-src", ["\x27self\x27", "https://www.google.com", "https://translate.google.com"]) ]

/-- Model of `Config._build_csp_header`: in debug mode `unsafe-inline` is
appended to the script and style sources. -/
def buildCspHeader (debug : Bool) : String :=
  let policy := if debug then
      cspPolicy.map (fun p =>
        if p.1 = "script-src" ∨ p.1 = "style-src" then (p.1, p.2 ++ ["\x27unsafe-inline\x27"])
        else p)
    else cspPolicy
  String.intercalate ("; ") (policy.map (fun p => p.1 ++ (" ") ++ String.intercalate (" ") p.2))

/-- Model of `Config.get_security_headers`. -/
def getSecurityHeaders (debug : Bool) : List (String × String) :=
  [ ("X-Content-Type-Options", ("nosniff")),
    ("X-Frame-Options", ("DENY")),
    ("X-XSS-Protection", ("1; mode=block")),
    ("Strict-Transport-Security", ("max-age=31536000; includeSubDomains")),
    ("Content-Security-Policy", buildCspHeader debug),
    ("Referrer-Policy", ("strict-origin-when-cross-origin")),
    ("Permissions-Policy", ("geolocation=(), microphone=(), camera=()")) ]

/-- An inbound HTTP request as the middleware sees it: the host header,
the declared numeric content-length header, and the session cookie
(which the middleware never consults). -/
structure HttpRequest where
  hostHeader : Option String
  contentLengthHeader : Option Int
  sessionCookie : Option String

/-- A downstream response: status code and headers. -/
structure HttpResponse where
  status : Int
  headers : List (String × String)

/-- The port-stripping step `host.split(":")[0]` (everything before the
first colon; the empty string when the header is empty). -/
def stripPort (s : String) : String :=
  String.mk (s.data.takeWhile (fun c => decide (c ≠ ':')))

/-- Replaces or appends one header (one step of `headers.update`). -/
def setHeader (hs : List (String × String)) (k v : String) : List (String × String) :=
  if hs.any (fun p => decide (p.1 = k)) then
    hs.map (fun p => if p.1 = k then (k, v) else p)
  else hs ++ [(k, v)]

/-- Model of `response.headers.update(security_headers)`. -/
def updateHeaders (hs news : List (String × String)) : List (String × String) :=
  news.foldl (fun acc kv => setHeader acc kv.1 kv.2) hs

/-- The outcome of `SecurityMiddleware.dispatch`: a response, or an
`HTTPException` with status code and detail. -/
inductive Outcome where
  | response (r : HttpResponse)
  | httpError (status : Int) (detail : String)

/-- Model of `SecurityMiddleware.dispatch`.  Here `callNext` stands for the whole
downstream pipeline (session, cache and route logic); the returned flag
records whether it ran.  An invalid host is rejected with 400 and an
oversized declared content-length with 413, in that order, before
`call_next`; on the success path the security headers are added to the
response. -/
def SecurityMiddleware.dispatch (cfg : Config) (debug : Bool) (req : HttpRequest)
    (callNext : HttpRequest → HttpResponse) : Outcome × Bool :=
  let host := stripPort (req.hostHeader.getD (""))
  if cfg.isAllowedHost host = false then
    (Outcome.httpError 400 ("Invalid host header"), false)
  else if cfg.maxRequestSize < req.contentLengthHeader.getD 0 then
    (Outcome.httpError 413 ("Request too large"), false)
  else
    let resp := callNext req
    (Outcome.response ⟨resp.status, updateHeaders resp.headers (getSecurityHeaders debug)⟩, true)

/-- One session record (a value of `SessionManager.sessions`). -/
structure Session where
  clientId : String
  createdAt : Int
  lastAccessed : Int

/-- The in-memory session registry of `src/security.py`. -/
structure SessionManager where
  secretKey : String
  lifetime : Int
  sessions : List (String × Session)

/-- Python dict lookup on the registry. -/
def lookupSess : List (String × Session) → String → Option Session
  | [], _ => none
  | p :: rest, sid => if p.1 = sid then some p.2 else lookupSess rest sid

/-- Python dict assignment: replace in place, else append. -/
def insertSess : List (String × Session) → String → Session → List (String × Session)
  | [], sid, s => [(sid, s)]
  | p :: rest, sid, s => if p.1 = sid then (sid, s) :: rest else p :: insertSess rest sid s

/-- Python dict deletion. -/
def removeSess (l : List (String × Session)) (sid : String) : List (String × Session) :=
  l.filter (fun p => decide (p.1 ≠ sid))

/-- In-place update of one entry by key. -/
def updateSess : List (String × Session) → String → (Session → Session) →
    List (String × Session)
  | [], _, _ => []
  | p :: rest, sid, f => if p.1 = sid then (p.1, f p.2) :: rest else p :: updateSess rest sid f

/-- Model of `SessionManager.create_session`: the generated
`secrets.token_urlsafe(32)` token is passed in as `sessionId` (it is a
nondeterministic input); both timestamps are the current time. -/
def SessionManager.createSession (m : SessionManager) (clientId : String) (sessionId : String)
    (now : Int) : String × SessionManager :=
  (sessionId, { m with sessions := insertSess m.sessions sessionId ⟨clientId, now, now⟩ })

/-- Model of `SessionManager.validate_session`: an unknown id gives `False`; an
id whose age exceeds the lifetime is deleted and gives `False`; 
otherwise `last_accessed` is refreshed and the result is `True`. -/
def SessionManager.validateSession (m : SessionManager) (sessionId : String) (now : Int) :
    Bool × SessionManager :=
  match lookupSess m.sessions sessionId with
  | none => (false, m)
  | some s =>
    if m.lifetime < now - s.createdAt then
      (false, { m with sessions := removeSess m.sessions sessionId })
    else
      (true, { m with sessions := updateSess m.sessions sessionId (fun s0 => { s0 with lastAccessed := now }) })

/-- Model of `SessionManager.end_session`. -/
def SessionManager.endSession (m : SessionManager) (sessionId : String) : SessionManager :=
  if (lookupSess m.sessions sessionId).isSome then
    { m with sessions := removeSess m.sessions sessionId }
  else m

/-- A sequence of validation calls on the same id at the given times,
keeping only the final registry. -/
def SessionManager.validateMany : SessionManager → String → List Int → SessionManager
  | m, _, [] => m
  | m, sid, t :: ts => SessionManager.validateMany (m.validateSession sid t).2 sid ts

/-- Two registries that agree on everything except the `last_accessed`
fields: same keys in the same order, same owners, same creation times. -/
def SameCore : List (String × Session) → List (String × Session) → Prop
  | [], [] => True
  | p :: r1, q :: r2 =>
    p.1 = q.1 ∧ p.2.clientId = q.2.clientId ∧ p.2.createdAt = q.2.createdAt ∧ SameCore r1 r2
  | _, _ => False

/-- Value of `REPORT_SCHEMA_VERSION` in `web_new.py`. -/
def reportSchemaVersion : Int := 2

/-- The wrapper the report endpoint returns on a truthy cache hit. -/
def readyBody (report : Json) : Json :=
  Json.obj [("status", Json.str ("ready")), ("report", report)]

/-- The 202 body returned while another computation holds the lock. -/
def generatingBody : Json := Json.obj [("status", Json.str ("generating"))]

/-- The 202 body returned by the request that scheduled the computation. -/
def startedBody : Json := Json.obj [("status", Json.str ("started"))]

/-- The record `generate_report_background` caches on success. -/
def successRecord (report : Json) : Json :=
  Json.obj [("status", Json.str ("success")), ("version", Json.num reportSchemaVersion),
    ("data", report)]

/-- The record `generate_report_background` caches on failure. -/
def errorRecord (msg : String) : Json :=
  Json.obj [("status", Json.str ("error")), ("message", Json.str msg)]

/-- The ttl of a cached error record (the literal `ttl=300` in
`generate_report_background`). -/
def errorCacheTtl : Int := 300

/-- The state of the report subsystem: whether the asyncio lock is
held, how many created tasks have not yet begun executing, how many
tasks are blocked acquiring the lock, how many are inside the critical
section, how many computations have ever begun, and the redis store. -/
structure FlightState where
  lockHeld : Bool
  pending : Nat
  waiting : Nat
  running : Nat
  started : Nat
  redis : RedisState

/-- The `/report` endpoint handler.  It is atomic with respect to the
event loop: there is no await between the cache read and
`asyncio.create_task`.  Returns the HTTP status and body together with
the new state (`create_task` adds one pending task). -/
def reportEndpoint (m : CacheManager) (st : FlightState) (now : Int) :
    (Int × Json) × FlightState :=
  let cached := m.get st.redis now getReportCacheKey
  if truthy cached then ((200, readyBody cached), st)
  else if st.lockHeld then ((202, generatingBody), st)
  else ((202, startedBody), { st with pending := st.pending + 1 })

/-- A created task reaches `async with report_lock`: it acquires the
free lock and begins the computation, or joins the waiters. -/
def taskStart (st : FlightState) : FlightState :=
  if st.pending = 0 then st
  else if st.lockHeld then
    { st with pending := st.pending - 1, waiting := st.waiting + 1 }
  else
    { st with pending := st.pending - 1, lockHeld := true, running := st.running + 1, started := st.started + 1 }

/-- Leaving `async with report_lock`: the lock is handed to the first
waiter, whose computation then begins, or released. -/
def releaseLock (st : FlightState) : FlightState :=
  if st.waiting = 0 then { st with lockHeld := false }
  else { st with waiting := st.waiting - 1, running := st.running + 1, started := st.started + 1 }

/-- Successful completion of `generate_report_background`: the success
record is cached with `ttl=config.cache_ttl`, then the lock is left. -/
def taskFinishOk (m : CacheManager) (cfg : Config) (st : FlightState) (now : Int)
    (report : Json) : FlightState :=
  if st.running = 0 then st
  else
    let redis2 := (m.set st.redis now getReportCacheKey (successRecord report) (some cfg.cacheTtl)).2
    releaseLock { st with running := st.running - 1, redis := redis2 }

/-- Failed completion of `generate_report_background`: the error record
is cached with the short `ttl=300`, then the lock is left. -/
def taskFinishErr (m : CacheManager) (st : FlightState) (now : Int) (msg : String) :
    FlightState :=
  if st.running = 0 then st
  else
    let redis2 := (m.set st.redis now getReportCacheKey (errorRecord msg) (some errorCacheTtl)).2
    releaseLock { st with running := st.running - 1, redis := redis2 }

/-- The events of the report subsystem as interleaved by the event loop. -/
inductive FlightEv where
  | request (now : Int) : FlightEv
  | start : FlightEv
  | finishOk (now : Int) (report : Json) : FlightEv
  | finishErr (now : Int) (msg : String) : FlightEv

/-- One atomic step of the event loop. -/
def flightStep (m : CacheManager) (cfg : Config) (st : FlightState) : FlightEv → FlightState
  | FlightEv.request t => (reportEndpoint m st t).2
  | FlightEv.start => taskStart st
  | FlightEv.finishOk t r => taskFinishOk m cfg st t r
  | FlightEv.finishErr t e => taskFinishErr m st t e

/-- Running a sequence of event-loop steps. -/
def flightRun (m : CacheManager) (cfg : Config) (st : FlightState) (evs : List FlightEv) :
    FlightState :=
  evs.foldl (flightStep m cfg) st

/-- The lock discipline: tasks are inside the critical section or
waiting only while the lock is held, and at most one task is ever
inside — the mutual-exclusion invariant of the single-flight design. -/
def LockInv (st : FlightState) : Prop :=
  st.running ≤ 1 ∧ (st.lockHeld = false → st.running = 0 ∧ st.waiting = 0)

/-- Events that are not new report requests. -/
def nonRequest : FlightEv → Bool
  | FlightEv.request _ => false
  | _ => true

theorem lookup_insert_self (l : List (String × Session)) (sid : String) (s : Session) :
    lookupSess (insertSess l sid s) sid = some s := by
  induction l with
  | nil => simp [insertSess, lookupSess]
  | cons p rest ih =>
    by_cases h : p.1 = sid
    · simp [insertSess, h, lookupSess]
    · simp [insertSess, h, lookupSess, ih]

theorem lookup_remove_self (l : List (String × Session)) (sid : String) :
    lookupSess (removeSess l sid) sid = none := by
  induction l with
  | nil => simp [removeSess, lookupSess]
  | cons p rest ih =>
    by_cases h : p.1 = sid
    · simpa [removeSess, h] using ih
    · simpa [removeSess, h, lookupSess] using ih

/-- C3: graceful degradation of the Cache Store: when the backing
store is disabled or unreachable (`redis_client is None`), `get`
misses (`None`), `set` and `delete` report failure, `exists` is
`False`, `clear_pattern` clears nothing — and each operation returns
this result normally, with the store untouched, so no exception
reaches the caller. -/
theorem cache_degrades_gracefully (m : CacheManager) (st : RedisState) (now : Int)
    (key : String) (value : Json) (ttl : Option Int) (pat : String)
    (hc : m.hasClient = false) :
    m.get st now key = Json.null ∧
    m.set st now key value ttl = (false, st) ∧
    m.delete st now key = (false, st) ∧
    m.existsKey st now key = false ∧
    m.clearPattern st now pat = (0, st) := by
  unfold CacheManager.get CacheManager.set CacheManager.delete CacheManager.existsKey
    CacheManager.clearPattern
  rw [hc]
  simp

theorem cache_degrades_gracefully_witness :
    (⟨3600, false⟩ : CacheManager).get [] 0 ("k") = Json.null ∧
    (⟨3600, false⟩ : CacheManager).set [] 0 ("k") (Json.num 1) none = (false, []) ∧
    (⟨3600, false⟩ : CacheManager).delete [] 0 ("k") = (false, []) ∧
    (⟨3600, false⟩ : CacheManager).existsKey [] 0 ("k") = false ∧
    (⟨3600, false⟩ : CacheManager).clearPattern [] 0 ("query:*") = (0, []) :=
  cache_degrades_gracefully ⟨3600, false⟩ [] 0 ("k") (Json.num 1) none ("query:*") rfl

/-- C5: cache round trip: with a reachable client and a positive ttl,
`set k v ttl` succeeds, an immediate `get k` returns `v` — the value
survives the serialize/deserialize pair — and a `get` performed once
`ttl` has elapsed returns the miss result. -/
theorem cache_roundtrip (m : CacheManager) (st : RedisState) (now : Int) (k : String)
    (v : Json) (t : Int) (hc : m.hasClient = true) (ht : 0 < t) :
    (m.set st now k v (some t)).1 = true ∧
    m.get (m.set st now k v (some t)).2 now k = v ∧
    ∀ t2, now + t ≤ t2 → m.get (m.set st now k v (some t)).2 t2 k = Json.null := by
  rw [CacheManager.set_pos m st now k v t hc ht]
  refine ⟨rfl, ?_, ?_⟩
  · exact CacheManager.get_entry_head m _ now k v (now + t) hc (by omega)
  · intro t2 h2
    exact CacheManager.get_entry_head_expired m _ t2 k (dumps v) (now + t) h2

theorem cache_roundtrip_witness :
    ((⟨3600, true⟩ : CacheManager).set [] 0 ("k") (Json.num 5) (some 60)).1 = true ∧
    (⟨3600, true⟩ : CacheManager).get
      ((⟨3600, true⟩ : CacheManager).set [] 0 ("k") (Json.num 5) (some 60)).2 0 ("k") =
      Json.num 5 ∧
    (⟨3600, true⟩ : CacheManager).get
      ((⟨3600, true⟩ : CacheManager).set [] 0 ("k") (Json.num 5) (some 60)).2 100 ("k") =
      Json.null :=
  ⟨(cache_roundtrip ⟨3600, true⟩ [] 0 ("k") (Json.num 5) 60 rfl (by decide)).1,
   (cache_roundtrip ⟨3600, true⟩ [] 0 ("k") (Json.num 5) 60 rfl (by decide)).2.1,
   (cache_roundtrip ⟨3600, true⟩ [] 0 ("k") (Json.num 5) 60 rfl (by decide)).2.2 100 (by decide)⟩

/-- C9: a falsy ttl argument (Python `None` or `0`) is treated as not
supplied: `set(key, value, ttl=0)` behaves exactly like a call without
ttl, succeeds, and stores the entry until `now + config.cache_ttl` — a
caller cannot request a zero-duration entry. -/
theorem cache_set_falsy_ttl_default (m : CacheManager) (st : RedisState) (now : Int)
    (k : String) (v : Json) (hc : m.hasClient = true) (hd : 0 < m.cacheTtl) :
    m.set st now k v (some 0) = m.set st now k v none ∧
    (m.set st now k v (some 0)).1 = true ∧
    redisFind (m.set st now k v (some 0)).2 k = some ⟨k, dumps v, now + m.cacheTtl⟩ ∧
    m.get (m.set st now k v (some 0)).2 now k = v := by
  have h1 : m.set st now k v (some 0) = m.set st now k v (some m.cacheTtl) := by
    unfold CacheManager.set
    simp only [ite_self, if_true]
  have hset : m.set st now k v (some 0) =
      (true, ⟨k, dumps v, now + m.cacheTtl⟩ :: st.filter (fun e => decide (e.key ≠ k))) :=
    h1.trans (CacheManager.set_pos m st now k v m.cacheTtl hc hd)
  refine ⟨rfl, ?_, ?_, ?_⟩
  · rw [hset]
  · rw [hset]
    simp [redisFind]
  · rw [hset]
    exact CacheManager.get_entry_head m _ now k v (now + m.cacheTtl) hc (by omega)

theorem cache_set_falsy_ttl_default_witness :
    (⟨3600, true⟩ : CacheManager).set [] 0 ("k") (Json.str ("v")) (some 0) =
      (⟨3600, true⟩ : CacheManager).set [] 0 ("k") (Json.str ("v")) none ∧
    ((⟨3600, true⟩ : CacheManager).set [] 0 ("k") (Json.str ("v")) (some 0)).1 = true ∧
    redisFind ((⟨3600, true⟩ : CacheManager).set [] 0 ("k") (Json.str ("v")) (some 0)).2 ("k") =
      some ⟨("k"), dumps (Json.str ("v")), 0 + 3600⟩ ∧
    (⟨3600, true⟩ : CacheManager).get
      ((⟨3600, true⟩ : CacheManager).set [] 0 ("k") (Json.str ("v")) (some 0)).2 0 ("k") =
      Json.str ("v") :=
  cache_set_falsy_ttl_default ⟨3600, true⟩ [] 0 ("k") (Json.str ("v")) rfl (by decide)

theorem validate_fresh (m : SessionManager) (cid sid : String) (t1 : Int)
    (hlt : 0 ≤ m.lifetime) :
    (m.createSession cid sid t1).2.validateSession sid t1 =
      (true, { (m.createSession cid sid t1).2 with
        sessions := updateSess (insertSess m.sessions sid ⟨cid, t1, t1⟩) sid
          (fun s0 => { s0 with lastAccessed := t1 }) }) := by
  unfold SessionManager.createSession SessionManager.validateSession
  simp only [lookup_insert_self]
  rw [if_neg (by omega : ¬ m.lifetime < t1 - t1)]

theorem validate_expired (m : SessionManager) (cid sid : String) (t1 t2 : Int)
    (hexp : m.lifetime < t2 - t1) :
    (m.createSession cid sid t1).2.validateSession sid t2 =
      (false, { (m.createSession cid sid t1).2 with
        sessions := removeSess (insertSess m.sessions sid ⟨cid, t1, t1⟩) sid }) := by
  unfold SessionManager.createSession SessionManager.validateSession
  simp only [lookup_insert_self]
  rw [if_pos (by omega : m.lifetime < t2 - t1)]

/-- C4: session lifecycle: `create_session` followed immediately by
`validate_session` on the returned id yields `True` (requires the
configured lifetime to be non-negative); a validation more than
`lifetime` seconds after creation yields `False` and removes the
session from the registry, so any later validation of the same id also
yields `False` — the session is purged, not merely marked expired. -/
theorem session_lifecycle (m : SessionManager) (cid sid : String) (t1 t2 t3 : Int)
    (hlt : 0 ≤ m.lifetime) (hexp : m.lifetime < t2 - t1) :
    ((m.createSession cid sid t1).2.validateSession sid t1).1 = true ∧
    ((m.createSession cid sid t1).2.validateSession sid t2).1 = false ∧
    lookupSess ((m.createSession cid sid t1).2.validateSession sid t2).2.sessions sid = none ∧
    (((m.createSession cid sid t1).2.validateSession sid t2).2.validateSession sid t3).1 =
      false := by
  refine ⟨?_, ?_, ?_, ?_⟩
  · rw [validate_fresh m cid sid t1 hlt]
  · rw [validate_expired m cid sid t1 t2 hexp]
  · rw [validate_expired m cid sid t1 t2 hexp]
    exact lookup_remove_self _ _
  · rw [validate_expired m cid sid t1 t2 hexp]
    unfold SessionManager.validateSession
    simp only [lookup_remove_self]

theorem session_lifecycle_witness :
    (((⟨("s"), 3600, []⟩ : SessionManager).createSession ("alice") ("tok") 0).2.validateSession
      ("tok") 0).1 = true ∧
    (((⟨("s"), 3600, []⟩ : SessionManager).createSession ("alice") ("tok") 0).2.validateSession
      ("tok") 4000).1 = false ∧
    lookupSess ((((⟨("s"), 3600, []⟩ : SessionManager).createSession ("alice") ("tok")
      0).2.validateSession ("tok") 4000).2).sessions ("tok") = none ∧
    ((((⟨("s"), 3600, []⟩ : SessionManager).createSession ("alice") ("tok")
      0).2.validateSession ("tok") 4000).2.validateSession ("tok") 4001).1 = false :=
  session_lifecycle ⟨("s"), 3600, []⟩ ("alice") ("tok") 0 4000 4001 (by decide) (by decide)

theorem lookup_update (l : List (String × Session)) (sid : String) (f : Session → Session) :
    lookupSess (updateSess l sid f) sid = (lookupSess l sid).map f := by
  induction l with
  | nil => simp [updateSess, lookupSess]
  | cons p rest ih =>
    by_cases h : p.1 = sid
    · simp [updateSess, h, lookupSess]
    · simp [updateSess, h, lookupSess, ih]

theorem lookup_update_ne (l : List (String × Session)) (sid k : String) (f : Session → Session)
    (h : k ≠ sid) : lookupSess (updateSess l sid f) k = lookupSess l k := by
  induction l with
  | nil => simp [updateSess, lookupSess]
  | cons p rest ih =>
    by_cases h1 : p.1 = sid
    · have h2 : ¬ (sid = k) := fun hc => h hc.symm
      simp [updateSess, h1, lookupSess, h2]
    · by_cases h3 : p.1 = k
      · simp [updateSess, h1, lookupSess, h3, h]
      · simp [updateSess, h1, lookupSess, h3, ih]

theorem validate_absent (m : SessionManager) (sid : String) (t : Int)
    (h : lookupSess m.sessions sid = none) : m.validateSession sid t = (false, m) := by
  unfold SessionManager.validateSession
  rw [h]

theorem validateSession_some (m : SessionManager) (sid : String) (t : Int) (s : Session)
    (h : lookupSess m.sessions sid = some s) :
    m.validateSession sid t =
      if m.lifetime < t - s.createdAt then
        (false, { m with sessions := removeSess m.sessions sid })
      else
        (true, { m with sessions := updateSess m.sessions sid (fun s0 => { s0 with lastAccessed := t }) }) := by
  unfold SessionManager.validateSession
  simp only [h]

theorem validate_lifetime (m : SessionManager) (sid : String) (t : Int) :
    (m.validateSession sid t).2.lifetime = m.lifetime ∧
    (m.validateSession sid t).2.secretKey = m.secretKey := by
  cases hl : lookupSess m.sessions sid with
  | none =>
    rw [validate_absent m sid t hl]
    exact ⟨rfl, rfl⟩
  | some s =>
    rw [validateSession_some m sid t s hl]
    by_cases h : m.lifetime < t - s.createdAt
    · rw [if_pos h]
      exact ⟨rfl, rfl⟩
    · rw [if_neg h]
      exact ⟨rfl, rfl⟩

theorem validate_preserves_created (m : SessionManager) (sid : String) (t : Int) :
    lookupSess (m.validateSession sid t).2.sessions sid = none ∨
    (∃ s s1, lookupSess m.sessions sid = some s ∧
      lookupSess (m.validateSession sid t).2.sessions sid = some s1 ∧
      s1.createdAt = s.createdAt) := by
  cases hl : lookupSess m.sessions sid with
  | none =>
    rw [validate_absent m sid t hl]
    exact Or.inl hl
  | some s =>
    rw [validateSession_some m sid t s hl]
    by_cases h : m.lifetime < t - s.createdAt
    · left
      rw [if_pos h]
      exact lookup_remove_self _ _
    · right
      refine ⟨s, { s with lastAccessed := t }, rfl, ?_, rfl⟩
      rw [if_neg h]
      show lookupSess (updateSess m.sessions sid (fun s0 => { s0 with lastAccessed := t })) sid = some { s with lastAccessed := t }
      rw [lookup_update, hl]
      rfl

theorem validateMany_absent (m : SessionManager) (sid : String) (ts : List Int)
    (h : lookupSess m.sessions sid = none) :
    lookupSess (SessionManager.validateMany m sid ts).sessions sid = none := by
  induction ts generalizing m with
  | nil => exact h
  | cons t ts ih =>
    rw [show SessionManager.validateMany m sid (t :: ts) =
      SessionManager.validateMany (m.validateSession sid t).2 sid ts from rfl]
    rw [validate_absent m sid t h]
    exact ih m h

theorem validateMany_lifetime (m : SessionManager) (sid : String) (ts : List Int) :
    (SessionManager.validateMany m sid ts).lifetime = m.lifetime := by
  induction ts generalizing m with
  | nil => rfl
  | cons t ts ih =>
    rw [show SessionManager.validateMany m sid (t :: ts) =
      SessionManager.validateMany (m.validateSession sid t).2 sid ts from rfl]
    rw [ih, (validate_lifetime m sid t).1]

theorem validateMany_created (m : SessionManager) (sid : String) (ts : List Int) (s0 : Session)
    (h : lookupSess m.sessions sid = some s0) :
    lookupSess (SessionManager.validateMany m sid ts).sessions sid = none ∨
    (∃ s1, lookupSess (SessionManager.validateMany m sid ts).sessions sid = some s1 ∧
      s1.createdAt = s0.createdAt) := by
  induction ts generalizing m s0 with
  | nil => exact Or.inr ⟨s0, h, rfl⟩
  | cons t ts ih =>
    rw [show SessionManager.validateMany m sid (t :: ts) =
      SessionManager.validateMany (m.validateSession sid t).2 sid ts from rfl]
    rcases validate_preserves_created m sid t with habs | ⟨s, s1, hs, hs1, heq⟩
    · left
      exact validateMany_absent _ sid ts habs
    · have hss0 : s = s0 := (Option.some_inj.mp (h.symm.trans hs)).symm
      rcases ih (m.validateSession sid t).2 s1 hs1 with habs2 | ⟨s2, hs2, heq2⟩
      · exact Or.inl habs2
      · right
        refine ⟨s2, hs2, ?_⟩
        rw [heq2, heq, hss0]

theorem lookup_sameCore (l1 l2 : List (String × Session)) (hcore : SameCore l1 l2)
    (sid : String) :
    (lookupSess l1 sid = none ∧ lookupSess l2 sid = none) ∨
    (∃ s1 s2, lookupSess l1 sid = some s1 ∧ lookupSess l2 sid = some s2 ∧
      s1.createdAt = s2.createdAt) := by
  induction l1 generalizing l2 with
  | nil =>
    cases l2 with
    | nil => left; exact ⟨rfl, rfl⟩
    | cons q r2 => exact absurd hcore (by simp [SameCore])
  | cons p r1 ih =>
    cases l2 with
    | nil => exact absurd hcore (by simp [SameCore])
    | cons q r2 =>
      obtain ⟨hk, _, hcreated, hrest⟩ := hcore
      by_cases h : p.1 = sid
      · right
        refine ⟨p.2, q.2, ?_, ?_, hcreated⟩
        · simp [lookupSess, h]
        · simp [lookupSess, hk ▸ h]
      · have h2 : ¬ q.1 = sid := by rw [← hk]; exact h
        rcases ih r2 hrest with ⟨ha, hb⟩ | ⟨s1, s2, ha, hb, hc⟩
        · left
          constructor
          · simpa [lookupSess, h] using ha
          · simpa [lookupSess, h2] using hb
        · right
          refine ⟨s1, s2, ?_, ?_, hc⟩
          · simpa [lookupSess, h] using ha
          · simpa [lookupSess, h2] using hb

theorem update_keys (l : List (String × Session)) (sid : String) (f : Session → Session) :
    (updateSess l sid f).map Prod.fst = l.map Prod.fst := by
  induction l with
  | nil => simp [updateSess]
  | cons p rest ih =>
    by_cases h : p.1 = sid
    · simp [updateSess, h]
    · simp [updateSess, h, ih]

/-- C7: hard-ceiling expiry: the boolean outcome of `validate_session`
is a function of membership, `created_at` and the current time only —
registries differing only in `last_accessed` values validate
identically — and after any sequence of intermediate validations of a
session, a validation more than `lifetime` seconds after the session's
creation still returns `False`: refreshing `last_accessed` never
extends a session's life. -/
theorem session_expiry_hard_ceiling :
    (∀ (m1 m2 : SessionManager) (sid : String) (t : Int),
      SameCore m1.sessions m2.sessions → m1.lifetime = m2.lifetime →
      (m1.validateSession sid t).1 = (m2.validateSession sid t).1) ∧
    (∀ (m : SessionManager) (sid : String) (ts : List Int) (t : Int) (s0 : Session),
      lookupSess m.sessions sid = some s0 → m.lifetime < t - s0.createdAt →
      ((SessionManager.validateMany m sid ts).validateSession sid t).1 = false) := by
  constructor
  · intro m1 m2 sid t hcore hlt
    rcases lookup_sameCore m1.sessions m2.sessions hcore sid with ⟨h1, h2⟩ | ⟨s1, s2, h1, h2, hc⟩
    · rw [validate_absent m1 sid t h1, validate_absent m2 sid t h2]
    · rw [validateSession_some m1 sid t s1 h1, validateSession_some m2 sid t s2 h2, hlt, hc]
      by_cases h : m2.lifetime < t - s2.createdAt
      · rw [if_pos h, if_pos h]
      · rw [if_neg h, if_neg h]
  · intro m sid ts t s0 h0 hexp
    have hlt := validateMany_lifetime m sid ts
    rcases validateMany_created m sid ts s0 h0 with habs | ⟨s1, hs1, heq⟩
    · rw [validate_absent _ sid t habs]
    · rw [validateSession_some _ sid t s1 hs1]
      rw [if_pos (by rw [hlt, heq]; exact hexp)]

theorem session_expiry_hard_ceiling_witness :
    ((⟨("s"), 3600, [(("a"), ⟨("c"), 0, 0⟩)]⟩ : SessionManager).validateSession ("a") 10).1 =
      ((⟨("s"), 3600, [(("a"), ⟨("c"), 0, 999⟩)]⟩ : SessionManager).validateSession ("a") 10).1 ∧
    ((SessionManager.validateMany ⟨("s"), 3600, [(("a"), ⟨("c"), 0, 0⟩)]⟩ ("a")
      [100, 200]).validateSession ("a") 5000).1 = false :=
  ⟨session_expiry_hard_ceiling.1 ⟨("s"), 3600, [(("a"), ⟨("c"), 0, 0⟩)]⟩
      ⟨("s"), 3600, [(("a"), ⟨("c"), 0, 999⟩)]⟩ ("a") 10 ⟨rfl, rfl, rfl, trivial⟩ rfl,
   session_expiry_hard_ceiling.2 ⟨("s"), 3600, [(("a"), ⟨("c"), 0, 0⟩)]⟩ ("a") [100, 200]
      5000 ⟨("c"), 0, 0⟩ rfl (by decide)⟩

/-- C10: frame property of validation: a `validate_session` call that
returns `True` changes only the `last_accessed` field of the named
session — its `client_id` and `created_at`, every other session, the
key order, the lifetime and the secret are unchanged; a call on an
unknown id leaves the manager entirely unchanged. -/
theorem validate_session_frame :
    (∀ (m : SessionManager) (sid : String) (now : Int),
      (m.validateSession sid now).1 = true →
      (∀ k, k ≠ sid →
        lookupSess (m.validateSession sid now).2.sessions k = lookupSess m.sessions k) ∧
      (∀ s, lookupSess m.sessions sid = some s →
        lookupSess (m.validateSession sid now).2.sessions sid =
          some ⟨s.clientId, s.createdAt, now⟩) ∧
      ((m.validateSession sid now).2.sessions.map Prod.fst = m.sessions.map Prod.fst) ∧
      (m.validateSession sid now).2.lifetime = m.lifetime ∧
      (m.validateSession sid now).2.secretKey = m.secretKey) ∧
    (∀ (m : SessionManager) (sid : String) (now : Int),
      lookupSess m.sessions sid = none → m.validateSession sid now = (false, m)) := by
  constructor
  · intro m sid now htrue
    cases hl : lookupSess m.sessions sid with
    | none =>
      rw [validate_absent m sid now hl] at htrue
      simp at htrue
    | some s =>
      rw [validateSession_some m sid now s hl] at htrue ⊢
      by_cases h : m.lifetime < now - s.createdAt
      · rw [if_pos h] at htrue
        simp at htrue
      · rw [if_neg h] at htrue ⊢
        refine ⟨?_, ?_, ?_, rfl, rfl⟩
        · intro k hk
          exact lookup_update_ne m.sessions sid k _ hk
        · intro s1 hs1
          have hss : s1 = s := (Option.some_inj.mp hs1).symm
          show lookupSess (updateSess m.sessions sid (fun s0 => { s0 with lastAccessed := now })) sid = some ⟨s1.clientId, s1.createdAt, now⟩
          rw [lookup_update, hl, hss]
          rfl
        · exact update_keys m.sessions sid _
  · intro m sid now h
    exact validate_absent m sid now h

theorem validate_session_frame_witness :
    lookupSess ((⟨("s"), 3600, [(("a"), ⟨("c"), 0, 0⟩), (("b"), ⟨("d"), 0, 0⟩)]⟩ :
        SessionManager).validateSession ("a") 10).2.sessions ("b") =
      lookupSess [(("a"), ⟨("c"), 0, 0⟩), (("b"), ⟨("d"), 0, 0⟩)] ("b") ∧
    lookupSess ((⟨("s"), 3600, [(("a"), ⟨("c"), 0, 0⟩), (("b"), ⟨("d"), 0, 0⟩)]⟩ :
        SessionManager).validateSession ("a") 10).2.sessions ("a") =
      some ⟨("c"), 0, 10⟩ ∧
    (⟨("s"), 3600, [(("a"), ⟨("c"), 0, 0⟩)]⟩ : SessionManager).validateSession ("z") 10 =
      (false, ⟨("s"), 3600, [(("a"), ⟨("c"), 0, 0⟩)]⟩) :=
  ⟨((validate_session_frame.1 ⟨("s"), 3600, [(("a"), ⟨("c"), 0, 0⟩), (("b"), ⟨("d"), 0, 0⟩)]⟩
      ("a") 10 rfl).1 ("b") (by decide)),
   ((validate_session_frame.1 ⟨("s"), 3600, [(("a"), ⟨("c"), 0, 0⟩), (("b"), ⟨("d"), 0, 0⟩)]⟩
      ("a") 10 rfl).2.1 ⟨("c"), 0, 0⟩ rfl),
   validate_session_frame.2 ⟨("s"), 3600, [(("a"), ⟨("c"), 0, 0⟩)]⟩ ("z") 10 rfl⟩

/-- C6: admission host check: a request whose host header, port
stripped, is not in the configured allow-list is rejected with an
invalid-host 400 before any downstream (session or cache) logic runs —
the downstream handler is never invoked, whatever it is and whatever
session cookie the request carries; an allowed-host request whose
declared content-length exceeds the configured ceiling is rejected
with a payload-too-large 413, likewise before any downstream logic. -/
theorem admission_host_check :
    (∀ (cfg : Config) (debug : Bool) (req : HttpRequest)
      (callNext : HttpRequest → HttpResponse),
      cfg.isAllowedHost (stripPort (req.hostHeader.getD (""))) = false →
      SecurityMiddleware.dispatch cfg debug req callNext =
        (Outcome.httpError 400 ("Invalid host header"), false)) ∧
    (∀ (cfg : Config) (debug : Bool) (req : HttpRequest)
      (callNext : HttpRequest → HttpResponse),
      cfg.isAllowedHost (stripPort (req.hostHeader.getD (""))) = true →
      cfg.maxRequestSize < req.contentLengthHeader.getD 0 →
      SecurityMiddleware.dispatch cfg debug req callNext =
        (Outcome.httpError 413 ("Request too large"), false)) := by
  constructor
  · intro cfg debug req callNext h
    unfold SecurityMiddleware.dispatch
    rw [if_pos h]
  · intro cfg debug req callNext h hsize
    unfold SecurityMiddleware.dispatch
    rw [if_neg (by rw [h]; exact fun hc => Bool.noConfusion hc), if_pos hsize]

theorem admission_host_check_witness :
    SecurityMiddleware.dispatch ⟨defaultAllowedHosts, 1024, 3600, 3600⟩ false
      ⟨some ("evil.com"), some 10, some ("valid-session-cookie")⟩ (fun _ => ⟨200, []⟩) =
      (Outcome.httpError 400 ("Invalid host header"), false) ∧
    SecurityMiddleware.dispatch ⟨defaultAllowedHosts, 1024, 3600, 3600⟩ false
      ⟨some ("localhost:8080"), some 2048, none⟩ (fun _ => ⟨200, []⟩) =
      (Outcome.httpError 413 ("Request too large"), false) :=
  ⟨admission_host_check.1 ⟨defaultAllowedHosts, 1024, 3600, 3600⟩ false
      ⟨some ("evil.com"), some 10, some ("valid-session-cookie")⟩ (fun _ => ⟨200, []⟩)
      (by decide),
   admission_host_check.2 ⟨defaultAllowedHosts, 1024, 3600, 3600⟩ false
      ⟨some ("localhost:8080"), some 2048, none⟩ (fun _ => ⟨200, []⟩)
      (by decide) (by decide)⟩

theorem releaseLock_redis (st : FlightState) : (releaseLock st).redis = st.redis := by
  unfold releaseLock
  split <;> rfl

/-- C8: error records expire sooner than success records: a successful
computation caches the record carrying the schema version and the data
under the report key with the standard `config.cache_ttl` (the entry
expires at `now + cache_ttl`); a failed computation caches the
`status`/`message` error record with the fixed short ttl 300; and
whenever `cache_ttl` carries its default resolved value (`CACHE_TTL`
unset, so 3600), the error ttl is strictly shorter. -/
theorem report_ttl_shapes (m : CacheManager) (cfg : Config) (st : FlightState) (now : Int)
    (report : Json) (msg : String)
    (hc : m.hasClient = true) (httl : 0 < cfg.cacheTtl) (hrun : ¬ st.running = 0) :
    successRecord report = Json.obj [("status", Json.str ("success")),
      ("version", Json.num reportSchemaVersion), ("data", report)] ∧
    redisFind (taskFinishOk m cfg st now report).redis getReportCacheKey =
      some ⟨getReportCacheKey, dumps (successRecord report), now + cfg.cacheTtl⟩ ∧
    errorRecord msg = Json.obj [("status", Json.str ("error")), ("message", Json.str msg)] ∧
    redisFind (taskFinishErr m st now msg).redis getReportCacheKey =
      some ⟨getReportCacheKey, dumps (errorRecord msg), now + errorCacheTtl⟩ ∧
    (cfg.cacheTtl = resolveCacheTtl none → errorCacheTtl < cfg.cacheTtl) := by
  have hok : taskFinishOk m cfg st now report = releaseLock { st with running := st.running - 1, redis := (m.set st.redis now getReportCacheKey (successRecord report) (some cfg.cacheTtl)).2 } := by
    unfold taskFinishOk
    rw [if_neg hrun]
  have herr : taskFinishErr m st now msg = releaseLock { st with running := st.running - 1, redis := (m.set st.redis now getReportCacheKey (errorRecord msg) (some errorCacheTtl)).2 } := by
    unfold taskFinishErr
    rw [if_neg hrun]
  refine ⟨rfl, ?_, rfl, ?_, ?_⟩
  · rw [hok, releaseLock_redis,
      CacheManager.set_pos m st.redis now getReportCacheKey (successRecord report)
        cfg.cacheTtl hc httl]
    simp [redisFind]
  · rw [herr, releaseLock_redis,
      CacheManager.set_pos m st.redis now getReportCacheKey (errorRecord msg)
        errorCacheTtl hc (by decide)]
    simp [redisFind]
  · intro h
    rw [h]
    decide

theorem report_ttl_shapes_witness :
    successRecord (Json.num 7) = Json.obj [("status", Json.str ("success")),
      ("version", Json.num reportSchemaVersion), ("data", Json.num 7)] ∧
    redisFind (taskFinishOk ⟨3600, true⟩ ⟨defaultAllowedHosts, 1048576, 3600, 3600⟩
        ⟨true, 0, 0, 1, 1, []⟩ 0 (Json.num 7)).redis getReportCacheKey =
      some ⟨getReportCacheKey, dumps (successRecord (Json.num 7)), 0 + 3600⟩ ∧
    errorRecord ("boom") = Json.obj [("status", Json.str ("error")),
      ("message", Json.str ("boom"))] ∧
    redisFind (taskFinishErr ⟨3600, true⟩ ⟨true, 0, 0, 1, 1, []⟩ 0
        ("boom")).redis getReportCacheKey =
      some ⟨getReportCacheKey, dumps (errorRecord ("boom")), 0 + errorCacheTtl⟩ ∧
    ((⟨defaultAllowedHosts, 1048576, 3600, 3600⟩ : Config).cacheTtl = resolveCacheTtl none →
      errorCacheTtl < (⟨defaultAllowedHosts, 1048576, 3600, 3600⟩ : Config).cacheTtl) :=
  report_ttl_shapes ⟨3600, true⟩ ⟨defaultAllowedHosts, 1048576, 3600, 3600⟩
    ⟨true, 0, 0, 1, 1, []⟩ 0 (Json.num 7) ("boom") rfl (by decide) (by decide)

theorem reportEndpoint_hit (m : CacheManager) (st : FlightState) (now : Int) (v : Json)
    (hget : m.get st.redis now getReportCacheKey = v) (htrue : truthy v = true) :
    reportEndpoint m st now = ((200, readyBody v), st) := by
  simp only [reportEndpoint, hget, htrue, if_true]

theorem reportEndpoint_generating (m : CacheManager) (st : FlightState) (now : Int)
    (hmiss : truthy (m.get st.redis now getReportCacheKey) = false)
    (hlock : st.lockHeld = true) :
    reportEndpoint m st now = ((202, generatingBody), st) := by
  simp [reportEndpoint, hmiss, hlock]

theorem reportEndpoint_schedule (m : CacheManager) (st : FlightState) (now : Int)
    (hmiss : truthy (m.get st.redis now getReportCacheKey) = false)
    (hlock : st.lockHeld = false) :
    reportEndpoint m st now = ((202, startedBody), { st with pending := st.pending + 1 }) := by
  simp [reportEndpoint, hmiss, hlock]

/-- The value of the first member of a JSON object, if any. -/
def firstMemberValue : Json → Option Json
  | Json.obj (kv :: _) => some kv.2
  | _ => none

/-- C2, counterexample: with the cached error record written at time 0
(error ttl 300) and a poll at time 10 — well before the error ttl
expires — the endpoint returns HTTP 200 with the stored error wrapped
as a ready payload, and that body is not of the claimed shape
`status`/`message`. -/
theorem report_error_shape_counterexample :
    (reportEndpoint ⟨3600, true⟩ ⟨false, 0, 0, 0, 0, ((⟨3600, true⟩ : CacheManager).set [] 0 getReportCacheKey (errorRecord ("boom")) (some errorCacheTtl)).2⟩ 10).1 = (200, readyBody (errorRecord ("boom"))) ∧
    readyBody (errorRecord ("boom")) ≠ errorRecord ("boom") := by
  constructor
  · have hget : (⟨3600, true⟩ : CacheManager).get
        ((⟨3600, true⟩ : CacheManager).set [] 0 getReportCacheKey (errorRecord ("boom"))
          (some errorCacheTtl)).2 10 getReportCacheKey = errorRecord ("boom") := by
      rw [CacheManager.set_pos (⟨3600, true⟩ : CacheManager) [] 0 getReportCacheKey
        (errorRecord ("boom")) errorCacheTtl rfl (by decide)]
      exact CacheManager.get_entry_head _ _ 10 _ _ _ rfl (by decide)
    rw [reportEndpoint_hit _ _ 10 (errorRecord ("boom")) hget rfl]
  · intro h
    have h2 : firstMemberValue (readyBody (errorRecord ("boom"))) =
        firstMemberValue (errorRecord ("boom")) := by rw [h]
    have h3 : Json.str ("ready") = Json.str ("error") := Option.some_inj.mp h2
    have h4 : ("ready" : String) = ("error") := Json.str.inj h3
    exact absurd h4 (by decide)

/-- C2, amended: after a failed computation caches the error record,
every poll issued before the error ttl expires returns the stored
error — wrapped as `readyBody`, HTTP 200, not as a top-level
`status`/`message` body — with no state change; a poll issued once the
error ttl has expired (with the lock free) misses the cache and
triggers a fresh computation, answering `started` and scheduling one
task. -/
theorem report_error_cached_behavior (m : CacheManager) (st0 : RedisState) (t0 t : Int)
    (msg : String) (fs : FlightState) (hc : m.hasClient = true)
    (hredis : fs.redis =
      (m.set st0 t0 getReportCacheKey (errorRecord msg) (some errorCacheTtl)).2) :
    (t < t0 + errorCacheTtl →
      reportEndpoint m fs t = ((200, readyBody (errorRecord msg)), fs)) ∧
    (t0 + errorCacheTtl ≤ t → fs.lockHeld = false →
      reportEndpoint m fs t = ((202, startedBody), { fs with pending := fs.pending + 1 })) := by
  have hset := CacheManager.set_pos m st0 t0 getReportCacheKey (errorRecord msg)
    errorCacheTtl hc (by decide)
  constructor
  · intro hlt
    have hget : m.get fs.redis t getReportCacheKey = errorRecord msg := by
      rw [hredis, hset]
      exact CacheManager.get_entry_head m _ t _ _ _ hc hlt
    exact reportEndpoint_hit m fs t (errorRecord msg) hget rfl
  · intro hge hlock
    have hget : m.get fs.redis t getReportCacheKey = Json.null := by
      rw [hredis, hset]
      exact CacheManager.get_entry_head_expired m _ t _ _ _ hge
    exact reportEndpoint_schedule m fs t (by rw [hget]; rfl) hlock

theorem report_error_cached_behavior_witness :
    reportEndpoint ⟨3600, true⟩ ⟨false, 2, 0, 0, 0, ((⟨3600, true⟩ : CacheManager).set [] 0 getReportCacheKey (errorRecord ("boom")) (some errorCacheTtl)).2⟩ 10 = ((200, readyBody (errorRecord ("boom"))), ⟨false, 2, 0, 0, 0, ((⟨3600, true⟩ : CacheManager).set [] 0 getReportCacheKey (errorRecord ("boom")) (some errorCacheTtl)).2⟩) ∧
    reportEndpoint ⟨3600, true⟩ ⟨false, 2, 0, 0, 0, ((⟨3600, true⟩ : CacheManager).set [] 0 getReportCacheKey (errorRecord ("boom")) (some errorCacheTtl)).2⟩ 300 = ((202, startedBody), ⟨false, 3, 0, 0, 0, ((⟨3600, true⟩ : CacheManager).set [] 0 getReportCacheKey (errorRecord ("boom")) (some errorCacheTtl)).2⟩) :=
  ⟨(report_error_cached_behavior ⟨3600, true⟩ [] 0 10 ("boom") ⟨false, 2, 0, 0, 0, ((⟨3600, true⟩ : CacheManager).set [] 0 getReportCacheKey (errorRecord ("boom")) (some errorCacheTtl)).2⟩ rfl rfl).1 (by decide),
   (report_error_cached_behavior ⟨3600, true⟩ [] 0 300 ("boom") ⟨false, 2, 0, 0, 0, ((⟨3600, true⟩ : CacheManager).set [] 0 getReportCacheKey (errorRecord ("boom")) (some errorCacheTtl)).2⟩ rfl rfl).2 (by decide) rfl⟩

theorem releaseLock_fields (y : FlightState) (hw : y.waiting = 0) :
    releaseLock y = { y with lockHeld := false } := by
  unfold releaseLock
  rw [if_pos hw]

theorem releaseLock_lockInv (y : FlightState) (hrun : y.running = 0)
    (hlw : y.lockHeld = true ∨ y.waiting = 0) : LockInv (releaseLock y) := by
  unfold releaseLock
  by_cases hw : y.waiting = 0
  · rw [if_pos hw]
    refine ⟨?_, fun _ => ⟨hrun, hw⟩⟩
    show y.running ≤ 1
    omega
  · rw [if_neg hw]
    have hl : y.lockHeld = true := by
      rcases hlw with h | h
      · exact h
      · exact absurd h hw
    refine ⟨?_, ?_⟩
    · show y.running + 1 ≤ 1
      omega
    · intro hfalse
      have hf2 : y.lockHeld = false := hfalse
      rw [hl] at hf2
      exact Bool.noConfusion hf2

theorem reportEndpoint_state (m : CacheManager) (st : FlightState) (t : Int) :
    (reportEndpoint m st t).2 = st ∨
    (reportEndpoint m st t).2 = { st with pending := st.pending + 1 } := by
  simp only [reportEndpoint]
  split
  · exact Or.inl rfl
  · split
    · exact Or.inl rfl
    · exact Or.inr rfl

theorem flightStep_lockInv (m : CacheManager) (cfg : Config) (st : FlightState)
    (ev : FlightEv) (h : LockInv st) : LockInv (flightStep m cfg st ev) := by
  obtain ⟨h1, h2⟩ := h
  cases ev with
  | request t =>
    rcases reportEndpoint_state m st t with he | he
    · show LockInv (reportEndpoint m st t).2
      rw [he]
      exact ⟨h1, h2⟩
    · show LockInv (reportEndpoint m st t).2
      rw [he]
      exact ⟨h1, h2⟩
  | start =>
    show LockInv (taskStart st)
    unfold taskStart
    by_cases hp : st.pending = 0
    · rw [if_pos hp]
      exact ⟨h1, h2⟩
    · rw [if_neg hp]
      by_cases hl : st.lockHeld = true
      · rw [if_pos hl]
        refine ⟨h1, ?_⟩
        intro hfalse
        have hf2 : st.lockHeld = false := hfalse
        rw [hl] at hf2
        exact Bool.noConfusion hf2
      · have hl2 : st.lockHeld = false := by
          revert hl
          cases st.lockHeld <;> simp
        obtain ⟨hr0, hw0⟩ := h2 hl2
        rw [if_neg hl]
        refine ⟨?_, ?_⟩
        · show st.running + 1 ≤ 1
          omega
        · intro hfalse
          exact Bool.noConfusion hfalse
  | finishOk t r =>
    show LockInv (taskFinishOk m cfg st t r)
    by_cases hr : st.running = 0
    · unfold taskFinishOk
      rw [if_pos hr]
      exact ⟨h1, h2⟩
    · have heq : taskFinishOk m cfg st t r = releaseLock { st with running := st.running - 1, redis := (m.set st.redis t getReportCacheKey (successRecord r) (some cfg.cacheTtl)).2 } := by
        unfold taskFinishOk
        rw [if_neg hr]
      rw [heq]
      refine releaseLock_lockInv _ ?_ ?_
      · show st.running - 1 = 0
        omega
      · by_cases hlk : st.lockHeld = true
        · exact Or.inl hlk
        · have hl2 : st.lockHeld = false := by
            revert hlk
            cases st.lockHeld <;> simp
          exact Or.inr (h2 hl2).2
  | finishErr t e =>
    show LockInv (taskFinishErr m st t e)
    by_cases hr : st.running = 0
    · unfold taskFinishErr
      rw [if_pos hr]
      exact ⟨h1, h2⟩
    · have heq : taskFinishErr m st t e = releaseLock { st with running := st.running - 1, redis := (m.set st.redis t getReportCacheKey (errorRecord e) (some errorCacheTtl)).2 } := by
        unfold taskFinishErr
        rw [if_neg hr]
      rw [heq]
      refine releaseLock_lockInv _ ?_ ?_
      · show st.running - 1 = 0
        omega
      · by_cases hlk : st.lockHeld = true
        · exact Or.inl hlk
        · have hl2 : st.lockHeld = false := by
            revert hlk
            cases st.lockHeld <;> simp
          exact Or.inr (h2 hl2).2

theorem flightRun_lockInv (m : CacheManager) (cfg : Config) (evs : List FlightEv) :
    ∀ st, LockInv st → LockInv (flightRun m cfg st evs) := by
  induction evs with
  | nil => exact fun st h => h
  | cons ev evs ih => exact fun st h => ih _ (flightStep_lockInv m cfg st ev h)

theorem flightStep_episode (m : CacheManager) (cfg : Config) (st : FlightState)
    (ev : FlightEv) (hp : st.pending = 0) (hw : st.waiting = 0) (hs : st.started = 1)
    (hnr : nonRequest ev = true) :
    (flightStep m cfg st ev).pending = 0 ∧ (flightStep m cfg st ev).waiting = 0 ∧
    (flightStep m cfg st ev).started = 1 := by
  cases ev with
  | request t => exact Bool.noConfusion hnr
  | start =>
    show (taskStart st).pending = 0 ∧ (taskStart st).waiting = 0 ∧ (taskStart st).started = 1
    unfold taskStart
    rw [if_pos hp]
    exact ⟨hp, hw, hs⟩
  | finishOk t r =>
    by_cases hr : st.running = 0
    · show (taskFinishOk m cfg st t r).pending = 0 ∧ (taskFinishOk m cfg st t r).waiting = 0 ∧
        (taskFinishOk m cfg st t r).started = 1
      unfold taskFinishOk
      rw [if_pos hr]
      exact ⟨hp, hw, hs⟩
    · have heq : taskFinishOk m cfg st t r = releaseLock { st with running := st.running - 1, redis := (m.set st.redis t getReportCacheKey (successRecord r) (some cfg.cacheTtl)).2 } := by
        unfold taskFinishOk
        rw [if_neg hr]
      have hyw : ({ st with running := st.running - 1, redis := (m.set st.redis t getReportCacheKey (successRecord r) (some cfg.cacheTtl)).2 } : FlightState).waiting = 0 := hw
      show (taskFinishOk m cfg st t r).pending = 0 ∧ (taskFinishOk m cfg st t r).waiting = 0 ∧
        (taskFinishOk m cfg st t r).started = 1
      rw [heq, releaseLock_fields _ hyw]
      exact ⟨hp, hw, hs⟩
  | finishErr t e =>
    by_cases hr : st.running = 0
    · show (taskFinishErr m st t e).pending = 0 ∧ (taskFinishErr m st t e).waiting = 0 ∧
        (taskFinishErr m st t e).started = 1
      unfold taskFinishErr
      rw [if_pos hr]
      exact ⟨hp, hw, hs⟩
    · have heq : taskFinishErr m st t e = releaseLock { st with running := st.running - 1, redis := (m.set st.redis t getReportCacheKey (errorRecord e) (some errorCacheTtl)).2 } := by
        unfold taskFinishErr
        rw [if_neg hr]
      have hyw : ({ st with running := st.running - 1, redis := (m.set st.redis t getReportCacheKey (errorRecord e) (some errorCacheTtl)).2 } : FlightState).waiting = 0 := hw
      show (taskFinishErr m st t e).pending = 0 ∧ (taskFinishErr m st t e).waiting = 0 ∧
        (taskFinishErr m st t e).started = 1
      rw [heq, releaseLock_fields _ hyw]
      exact ⟨hp, hw, hs⟩

theorem flightRun_episode (m : CacheManager) (cfg : Config) (evs : List FlightEv) :
    ∀ st, st.pending = 0 → st.waiting = 0 → st.started = 1 → evs.all nonRequest = true →
    (flightRun m cfg st evs).pending = 0 ∧ (flightRun m cfg st evs).waiting = 0 ∧
    (flightRun m cfg st evs).started = 1 := by
  induction evs with
  | nil => exact fun st hp hw hs _ => ⟨hp, hw, hs⟩
  | cons ev evs ih =>
    intro st hp hw hs hall
    obtain ⟨hev, hrest⟩ : nonRequest ev = true ∧ evs.all nonRequest = true := by
      simpa [List.all_cons, Bool.and_eq_true] using hall
    obtain ⟨p2, w2, s2⟩ := flightStep_episode m cfg st ev hp hw hs hev
    exact ih _ p2 w2 s2 hrest

/-- C1: single-flight guarantee: from an idle state with a cache miss,
the first report request answers `started` and schedules one task;
once that task begins its computation (acquiring the lock), a second
back-to-back request — the cache still a miss — answers `generating`
with HTTP 202, never `started`, and changes nothing: no new task, no
write.  Exactly one computation has begun (`started = 1`), and however
the episode continues without new requests, the count stays one, so no
duplicate `ready` write can occur; moreover the lock discipline keeps
at most one computation inside the critical section along every event
sequence from every state satisfying it. -/
theorem single_flight_report (m : CacheManager) (cfg : Config) (st : FlightState) (t1 t2 : Int)
    (hlock : st.lockHeld = false) (hpend : st.pending = 0) (hwait : st.waiting = 0)
    (hrun : st.running = 0) (hstart : st.started = 0)
    (hmiss : truthy (m.get st.redis t1 getReportCacheKey) = false) (hle : t1 ≤ t2) :
    (reportEndpoint m st t1).1 = (202, startedBody) ∧
    (reportEndpoint m (taskStart (reportEndpoint m st t1).2) t2).1 = (202, generatingBody) ∧
    (reportEndpoint m (taskStart (reportEndpoint m st t1).2) t2).2 =
      taskStart (reportEndpoint m st t1).2 ∧
    (taskStart (reportEndpoint m st t1).2).started = 1 ∧
    (taskStart (reportEndpoint m st t1).2).pending = 0 ∧
    (taskStart (reportEndpoint m st t1).2).running = 1 ∧
    (∀ evs, evs.all nonRequest = true →
      (flightRun m cfg (reportEndpoint m (taskStart (reportEndpoint m st t1).2) t2).2
        evs).started = 1) ∧
    (∀ evs st0, LockInv st0 → LockInv (flightRun m cfg st0 evs)) := by
  have h1 := reportEndpoint_schedule m st t1 hmiss hlock
  have hst2 : taskStart (reportEndpoint m st t1).2 = { st with pending := st.pending + 1 - 1, lockHeld := true, running := st.running + 1, started := st.started + 1 } := by
    rw [h1]
    unfold taskStart
    rw [if_neg (by simp : ¬ ({ st with pending := st.pending + 1 } : FlightState).pending = 0)]
    rw [if_neg (by simp [hlock] : ¬ ({ st with pending := st.pending + 1 } : FlightState).lockHeld = true)]
  have hmiss2 : truthy (m.get st.redis t2 getReportCacheKey) = false :=
    CacheManager.get_miss_mono m st.redis getReportCacheKey t1 t2 hmiss hle
  have hg : reportEndpoint m (taskStart (reportEndpoint m st t1).2) t2 =
      ((202, generatingBody), taskStart (reportEndpoint m st t1).2) := by
    apply reportEndpoint_generating
    · rw [hst2]
      exact hmiss2
    · rw [hst2]
  refine ⟨?_, ?_, ?_, ?_, ?_, ?_, ?_, ?_⟩
  · rw [h1]
  · rw [hg]
  · rw [hg]
  · rw [hst2]
    show st.started + 1 = 1
    omega
  · rw [hst2]
    show st.pending + 1 - 1 = 0
    omega
  · rw [hst2]
    show st.running + 1 = 1
    omega
  · intro evs hall
    rw [hg]
    refine (flightRun_episode m cfg evs (taskStart (reportEndpoint m st t1).2) ?_ ?_ ?_ hall).2.2
    · rw [hst2]
      show st.pending + 1 - 1 = 0
      omega
    · rw [hst2]
      exact hwait
    · rw [hst2]
      show st.started + 1 = 1
      omega
  · exact fun evs st0 h => flightRun_lockInv m cfg evs st0 h

theorem single_flight_report_witness :
    (reportEndpoint ⟨3600, false⟩ ⟨false, 0, 0, 0, 0, []⟩ 0).1 = (202, startedBody) ∧
    (reportEndpoint ⟨3600, false⟩ (taskStart (reportEndpoint ⟨3600, false⟩
      ⟨false, 0, 0, 0, 0, []⟩ 0).2) 1).1 = (202, generatingBody) ∧
    (taskStart (reportEndpoint ⟨3600, false⟩ ⟨false, 0, 0, 0, 0, []⟩ 0).2).started = 1 ∧
    (flightRun ⟨3600, false⟩ ⟨defaultAllowedHosts, 1048576, 3600, 3600⟩
      (reportEndpoint ⟨3600, false⟩ (taskStart (reportEndpoint ⟨3600, false⟩
        ⟨false, 0, 0, 0, 0, []⟩ 0).2) 1).2
      [FlightEv.start, FlightEv.finishErr 5 ("x"), FlightEv.start]).started = 1 ∧
    LockInv (flightRun ⟨3600, false⟩ ⟨defaultAllowedHosts, 1048576, 3600, 3600⟩
      ⟨false, 0, 0, 0, 0, []⟩ [FlightEv.request 0, FlightEv.start, FlightEv.request 1]) :=
  ⟨(single_flight_report ⟨3600, false⟩ ⟨defaultAllowedHosts, 1048576, 3600, 3600⟩
      ⟨false, 0, 0, 0, 0, []⟩ 0 1 rfl rfl rfl rfl rfl rfl (by decide)).1,
   (single_flight_report ⟨3600, false⟩ ⟨defaultAllowedHosts, 1048576, 3600, 3600⟩
      ⟨false, 0, 0, 0, 0, []⟩ 0 1 rfl rfl rfl rfl rfl rfl (by decide)).2.1,
   (single_flight_report ⟨3600, false⟩ ⟨defaultAllowedHosts, 1048576, 3600, 3600⟩
      ⟨false, 0, 0, 0, 0, []⟩ 0 1 rfl rfl rfl rfl rfl rfl (by decide)).2.2.2.1,
   (single_flight_report ⟨3600, false⟩ ⟨defaultAllowedHosts, 1048576, 3600, 3600⟩
      ⟨false, 0, 0, 0, 0, []⟩ 0 1 rfl rfl rfl rfl rfl rfl (by decide)).2.2.2.2.2.2.1
      [FlightEv.start, FlightEv.finishErr 5 ("x"), FlightEv.start] rfl,
   (single_flight_report ⟨3600, false⟩ ⟨defaultAllowedHosts, 1048576, 3600, 3600⟩
      ⟨false, 0, 0, 0, 0, []⟩ 0 1 rfl rfl rfl rfl rfl rfl (by decide)).2.2.2.2.2.2.2
      [FlightEv.request 0, FlightEv.start, FlightEv.request 1] ⟨false, 0, 0, 0, 0, []⟩
      ⟨by decide, fun _ => ⟨rfl, rfl⟩⟩⟩
